import Mathlib

/-!
# Lennard-Jones pair force and cap-radius solver (`lj.h`)

A shallow embedding of the two routines of `lj.h`:

* `add_lj_pair_force`: the capped Lennard-Jones force of one particle pair, accumulated on
  both particles, together with the messages written to `stderr`;
* `calc_lj_cap_radii`: the pass over the interaction-parameter table that derives the cap
  radius of every type pair from a force cap.

## Conventions of the embedding

* `double` arithmetic is read as exact arithmetic in a linearly ordered field `K`.  All
  definitions are computable; they are run at `K = ℚ` and the theorems hold for every such
  field, in particular for `ℝ`.  The decimal constants of the source are the corresponding
  fractions (`0.5 = 1/2`, `0.1 = 1/10`, `1.0e-6 = 1/1000000`, `3e-6 = 3/1000000`).
* Division is the division of the field, for which `x / 0 = 0`; in C a division by zero
  gives an infinity or a NaN.  In the search loop of `calc_lj_cap_radii` the radius can
  become exactly zero; there the C value of `force` is a NaN, every comparison with it is
  false, and the embedding follows C (`lj_cap_force` returns `none`).
* `while(step != 0)` may run forever.  The loop is embedded with a bound on the number of
  iterations (`fuel`); `none` means that the bound was reached.
* The data types `Particle` and `IA_parameters`, the globals `this_node`, `time_step`,
  `n_particle_types`, the accessor `get_ia_param` and the debugging switches `LJ_TRACE`,
  `FORCE_TRACE` are declared outside `lj.h`.  The structures below keep the fields that
  `lj.h` uses; the globals and switches are collected in `Globals`; the parameter table is
  a function of the ordered type pair, one entry per pair.
* The counters `n_particle_types` and `cnt` are natural numbers: a loop bound below zero
  behaves as the bound zero, and `cnt` is only printed.
* The two pointers `p1`, `p2` of `add_lj_pair_force` point to two distinct particles.

The second part of the file (namespace `CudaCommon`) embeds the guarded device check
`_cuda_safe_mem` of `cuda_common.h`; its definitions stand before the theorems on `lj.h`.
-/

namespace LJ

/-! ## Data model -/

/-- The part `r` of a particle; only the identity is used by `lj.h`. -/
structure ParticleProperties where
  identity : Int
  deriving DecidableEq, Repr

/-- A particle: its properties `r` and the force accumulator `f[3]`. -/
structure Particle (K : Type) where
  r : ParticleProperties
  f : Fin 3 → K

/-- Interaction parameters of one ordered type pair (the Lennard-Jones fields). -/
structure IA_parameters (K : Type) where
  LJ_eps : K
  LJ_sig : K
  LJ_cut : K
  LJ_offset : K
  LJ_capradius : K

/-- Globals and compile-time switches read by `lj.h`: `lj_trace` and `force_trace` tell
whether the macros `LJ_TRACE` and `FORCE_TRACE` expand to their argument or to nothing. -/
structure Globals (K : Type) where
  this_node : Int
  time_step : K
  n_particle_types : Nat
  lj_trace : Bool
  force_trace : Bool

/-- The lines written to `stderr`, one constructor per `fprintf` of `lj.h`, with the
arguments of the call. -/
inductive Msg (K : Type) where
  | lj_warning (node id1 id2 : Int) (force dist : K)
  | on_top (node id1 id2 : Int)
  | lj_trace (node id1 id2 : Int) (dist f0 f1 f2 : K)
  | force_trace (node : Int) (i j : Nat) (rad : K) (force : Option K) (cnt : Nat)

/-- The macro `SQR`. -/
def SQR {K : Type} [LinearOrderedField K] (x : K) : K := x * x

/-! ## The pair force -/

/-- The outcome of a call of `add_lj_pair_force`: both particles and the messages written,
in the order of writing. -/
structure PairResult (K : Type) where
  p1 : Particle K
  p2 : Particle K
  out : List (Msg K)

/-- The loop `for(j=0;j<3;j++) { p1->f[j] += fac * d[j]; p2->f[j] -= fac * d[j]; }`. -/
def add_along {K : Type} [LinearOrderedField K] (p1 p2 : Particle K) (fac : K)
    (d : Fin 3 → K) : Particle K × Particle K :=
  (⟨p1.r, fun j => p1.f j + fac * d j⟩, ⟨p2.r, fun j => p2.f j - fac * d j⟩)

/-- The trace line at the end of the interacting branch, written when `LJ_TRACE` is on. -/
def lj_trace_out {K : Type} [LinearOrderedField K] (g : Globals K) (p1 p2 : Particle K)
    (dist fac : K) (d : Fin 3 → K) : List (Msg K) :=
  if g.lj_trace then
    [Msg.lj_trace g.this_node p1.r.identity p2.r.identity dist (fac * d 0) (fac * d 1)
      (fac * d 2)]
  else []

/-- The routine `add_lj_pair_force(p1, p2, ia_params, d, dist)` for two distinct particles. -/
def add_lj_pair_force {K : Type} [LinearOrderedField K] (g : Globals K)
    (p1 p2 : Particle K) (ia_params : IA_parameters K) (d : Fin 3 → K) (dist : K) :
    PairResult K :=
  if dist < ia_params.LJ_cut + ia_params.LJ_offset then
    let r_off := dist - ia_params.LJ_offset
    if r_off > ia_params.LJ_capradius then
      -- normal case: resulting force/energy smaller than capping
      let frac2 := SQR (ia_params.LJ_sig / r_off)
      let frac6 := frac2 * frac2 * frac2
      let fac := 48 * ia_params.LJ_eps * frac6 * (frac6 - 1 / 2) * frac2 * (r_off / dist)
      let q := add_along p1 p2 fac d
      let warn : List (Msg K) :=
        if fac * dist * (1 / 2) * g.time_step * g.time_step > 3 / 1000000 then
          [Msg.lj_warning g.this_node p1.r.identity p2.r.identity (fac * dist) dist]
        else []
      ⟨q.1, q.2, warn ++ lj_trace_out g p1 p2 dist fac d⟩
    else if dist > 0 then
      -- capped part of lj potential
      let frac2 := SQR (ia_params.LJ_sig / ia_params.LJ_capradius)
      let frac6 := frac2 * frac2 * frac2
      let fac := 48 * ia_params.LJ_eps * frac6 * (frac6 - 1 / 2) * frac2 *
        (ia_params.LJ_capradius / dist)
      let q := add_along p1 p2 fac d
      ⟨q.1, q.2, lj_trace_out g p1 p2 dist fac d⟩
    else
      -- this should not happen
      let frac2 := SQR (ia_params.LJ_sig / ia_params.LJ_capradius)
      let frac6 := frac2 * frac2 * frac2
      let fac := 48 * ia_params.LJ_eps * frac6 * (frac6 - 1 / 2) * frac2
      let q1 : Particle K :=
        ⟨p1.r, fun j => if j = 0 then p1.f j + fac * ia_params.LJ_capradius else p1.f j⟩
      let q2 : Particle K :=
        ⟨p2.r, fun j => if j = 0 then p2.f j - fac * ia_params.LJ_capradius else p2.f j⟩
      ⟨q1, q2, Msg.on_top g.this_node p1.r.identity p2.r.identity ::
        lj_trace_out g p1 p2 dist fac d⟩
  else
    ⟨p1, p2, []⟩

/-- The value of `fac` in the normal branch (line 25 of `lj.h`), as a function of the
parameters and the distance. -/
def uncapped_fac {K : Type} [LinearOrderedField K] (ia_params : IA_parameters K)
    (dist : K) : K :=
  let r_off := dist - ia_params.LJ_offset
  let frac2 := SQR (ia_params.LJ_sig / r_off)
  let frac6 := frac2 * frac2 * frac2
  48 * ia_params.LJ_eps * frac6 * (frac6 - 1 / 2) * frac2 * (r_off / dist)

/-- The value of `fac` in the capped branch (line 37 of `lj.h`). -/
def capped_fac {K : Type} [LinearOrderedField K] (ia_params : IA_parameters K)
    (dist : K) : K :=
  let frac2 := SQR (ia_params.LJ_sig / ia_params.LJ_capradius)
  let frac6 := frac2 * frac2 * frac2
  48 * ia_params.LJ_eps * frac6 * (frac6 - 1 / 2) * frac2 * (ia_params.LJ_capradius / dist)

/-! ## The cap-radius solver -/

/-- The expression assigned to `force` in the search loop, as a function of the radius:
`frac2 = SQR(sig/rad)`, `frac6 = frac2*frac2*frac2`,
`force = 48.0 * eps * frac6*(frac6 - 0.5)*frac2*rad`. -/
def lj_force {K : Type} [LinearOrderedField K] (sig eps rad : K) : K :=
  let frac2 := SQR (sig / rad)
  let frac6 := frac2 * frac2 * frac2
  48 * eps * frac6 * (frac6 - 1 / 2) * frac2 * rad

/-- The value of `force` computed by one iteration of the search loop: `none` stands for
the NaN that C computes at `rad = 0`, where `sig/rad` is a division by zero. -/
def lj_cap_force {K : Type} [LinearOrderedField K] (sig eps rad : K) : Option K :=
  if rad = 0 then none else some (lj_force sig eps rad)

/-- The local variables `rad`, `step`, `force`, `cnt` of `calc_lj_cap_radii`. -/
structure CapSearch (K : Type) where
  rad : K
  step : K
  force : Option K
  cnt : Nat

/-- One iteration of the body of `while(step != 0)`.  With a NaN `force` neither test
holds. -/
def cap_search_body {K : Type} [LinearOrderedField K] (sig eps force_cap : K)
    (s : CapSearch K) : CapSearch K :=
  let force := lj_cap_force sig eps s.rad
  let step1 : K :=
    match force with
    | some f =>
      if (s.step < 0 ∧ force_cap < f) ∨ (s.step > 0 ∧ force_cap > f) then -(s.step / 2)
      else s.step
    | none => s.step
  let step2 : K :=
    match force with
    | some f => if |f - force_cap| < 1 / 1000000 then 0 else step1
    | none => step1
  ⟨s.rad + step2, step2, force, s.cnt + 1⟩

/-- The loop `while(step != 0) { ... }`, run for at most `fuel` iterations: `some s` is the
state in which the loop was left, `none` means that it was still running. -/
def cap_search_loop {K : Type} [LinearOrderedField K] (sig eps force_cap : K) :
    Nat → CapSearch K → Option (CapSearch K)
  | 0, s => if s.step = 0 then some s else none
  | fuel + 1, s =>
    if s.step = 0 then some s
    else cap_search_loop sig eps force_cap fuel (cap_search_body sig eps force_cap s)

/-- The locals at the entry of the loop for one type pair: `cnt=0; rad = sig;
step = -0.1 * sig; force=0.0`. -/
def cap_search_init {K : Type} [LinearOrderedField K] (sig : K) : CapSearch K :=
  ⟨sig, -(1 / 10) * sig, some 0, 0⟩

/-- The parameter table behind `get_ia_param(i,j)`: one entry per ordered type pair. -/
abbrev IA_table (K : Type) := Nat → Nat → IA_parameters K

/-- The entry `p` after the assignment `p->LJ_capradius = v`. -/
def with_capradius {K : Type} (p : IA_parameters K) (v : K) : IA_parameters K :=
  ⟨p.LJ_eps, p.LJ_sig, p.LJ_cut, p.LJ_offset, v⟩

/-- The assignment `get_ia_param(i,j)->LJ_capradius = v`. -/
def set_capradius {K : Type} (t : IA_table K) (i j : Nat) (v : K) : IA_table K :=
  fun a b => if a = i ∧ b = j then with_capradius (t a b) v else t a b

/-- The state of a run of `calc_lj_cap_radii`: the table, the locals `rad`, `force`, `cnt`
that live across the type pairs, and the messages written. -/
structure CapPass (K : Type) where
  table : IA_table K
  rad : K
  force : Option K
  cnt : Nat
  out : List (Msg K)

/-- The trace line of one type pair, written when `FORCE_TRACE` is on. -/
def force_trace_out {K : Type} (g : Globals K) (i j : Nat) (rad : K) (force : Option K)
    (cnt : Nat) : List (Msg K) :=
  if g.force_trace then [Msg.force_trace g.this_node i j rad force cnt] else []

/-- The body of the inner `for` loop of `calc_lj_cap_radii` for the type pair `(i,j)`. -/
def calc_lj_cap_entry {K : Type} [LinearOrderedField K] (fuel : Nat) (g : Globals K)
    (force_cap : K) (i j : Nat) (st : CapPass K) : Option (CapPass K) :=
  let params := st.table i j
  if force_cap > 0 then
    match cap_search_loop params.LJ_sig params.LJ_eps force_cap fuel
        (cap_search_init params.LJ_sig) with
    | none => none
    | some s =>
      some ⟨set_capradius st.table i j s.rad, s.rad, s.force, s.cnt,
        st.out ++ force_trace_out g i j s.rad s.force s.cnt⟩
  else
    some ⟨set_capradius st.table i j 0, st.rad, st.force, st.cnt,
      st.out ++ force_trace_out g i j st.rad st.force st.cnt⟩

/-- The inner loop `for(j=0; j<n_particle_types; j++)` for a fixed `i`. -/
def calc_lj_cap_row {K : Type} [LinearOrderedField K] (fuel : Nat) (g : Globals K)
    (force_cap : K) (i : Nat) (st : CapPass K) : Option (CapPass K) :=
  (List.range g.n_particle_types).foldlM
    (fun acc j => calc_lj_cap_entry fuel g force_cap i j acc) st

/-- The routine `calc_lj_cap_radii(force_cap)`, every search loop run for at most `fuel`
iterations; the locals start as `force=0.0, rad=0.0, cnt=0`. -/
def calc_lj_cap_radii {K : Type} [LinearOrderedField K] (fuel : Nat) (g : Globals K)
    (force_cap : K) (table : IA_table K) : Option (CapPass K) :=
  (List.range g.n_particle_types).foldlM
    (fun acc i => calc_lj_cap_row fuel g force_cap i acc) ⟨table, 0, some 0, 0, []⟩

/-! ## Predicates used in the statements -/

/-- The postcondition of a search that ran at least one iteration. -/
def CapExit {K : Type} [LinearOrderedField K] (sig eps force_cap : K)
    (s : CapSearch K) : Prop :=
  s.step = 0 → s.rad ≠ 0 ∧ s.force = some (lj_force sig eps s.rad) ∧
    |lj_force sig eps s.rad - force_cap| < 1 / 1000000

/-- The cap radius that `calc_lj_cap_radii` derives for one entry: the radius at which the
search is left if `force_cap > 0` (`none` if it is not left within `fuel` iterations), and
0 otherwise. -/
def cap_radius_of {K : Type} [LinearOrderedField K] (fuel : Nat) (force_cap : K)
    (p : IA_parameters K) : Option K :=
  if force_cap > 0 then
    (cap_search_loop p.LJ_sig p.LJ_eps force_cap fuel (cap_search_init p.LJ_sig)).map
      CapSearch.rad
  else some 0

/-- Table `u` is table `t` with the derived cap radius written on the entries selected by
`S` and nothing else changed. -/
def Updated {K : Type} [LinearOrderedField K] (fuel : Nat) (force_cap : K)
    (S : Nat → Nat → Prop) (t u : IA_table K) : Prop :=
  ∀ a b, (S a b → ∃ r, cap_radius_of fuel force_cap (t a b) = some r ∧
      u a b = with_capradius (t a b) r) ∧
    (¬ S a b → u a b = t a b)

/-- Invariant of the search loop for positive `sig`, `eps`: the loop was left at a positive
radius; or it is in its first iteration; or it is still descending in steps of `-0.1 sig`
and the force cap lies above `force(sig)` by the tolerance; or a radius `L > 0` with
`force(L) > force_cap` was met and `rad` lies a whole number of steps above it. -/
def CapInv {K : Type} [LinearOrderedField K] (sig eps force_cap : K)
    (s : CapSearch K) : Prop :=
  (s.step = 0 ∧ 0 < s.rad) ∨
  (s.step < 0 ∧ s.rad = sig) ∨
  (s.step < 0 ∧ lj_force sig eps sig + 1 / 1000000 ≤ force_cap) ∨
  (s.step ≠ 0 ∧ ∃ (L : K) (m : Nat), 0 < L ∧ force_cap < lj_force sig eps L ∧
    s.rad = L + m * |s.step| ∧ (0 < s.step → 1 ≤ m))

/-- The Lennard-Jones force in the words of the spec: `-dU/dr` of the 12-6 potential
`U(r) = 4 eps ((sig/r)^12 - (sig/r)^6)`, that is `48 eps ((sig/r)^12 - 0.5 (sig/r)^6) / r`. -/
def lennard_jones_force {K : Type} [LinearOrderedField K] (sig eps r : K) : K :=
  48 * eps * ((sig / r) ^ 12 - 1 / 2 * (sig / r) ^ 6) / r

end LJ

/-!
# The guarded device check and the device particle buffer (`cuda_common.h`)

`_cuda_safe_mem` is embedded with the lines it prints and the way it ends; the error codes
and `cudaGetLastError` belong to the CUDA runtime.  The functions that allocate the device
arrays are only declared in `cuda_common.h`; the device particle buffer is modelled from
the spec.
-/

namespace CudaCommon

/-! ## The guarded check -/

/-- The error codes `cudaError_t` of the CUDA runtime: the two codes named in
`cuda_common.h`, and every other code by its number. -/
inductive cudaError_t where
  | cudaSuccess
  | cudaErrorInvalidValue
  | other (code : Nat)
  deriving DecidableEq

open cudaError_t

/-- The lines printed by `_cuda_safe_mem`, one constructor per `fprintf`/`printf` of the
function, with the arguments of the call; `cuda_error e` is the line
`"CUDA error: %s\n"` printed with `cudaGetErrorString(e)`. -/
inductive CudaMsg where
  | memory_error (file : String) (line : Nat)
  | cuda_error (e : cudaError_t)
  | zero_memory_at (file : String) (line : Nat)
  | found_during (file : String) (line : Nat)
  | zero_memory_before (file : String) (line : Nat)
  deriving DecidableEq

/-- The state read and written by `_cuda_safe_mem`: the global `_err` and the last error
recorded by the CUDA runtime, which `cudaGetLastError` returns and resets. -/
structure CudaState where
  _err : cudaError_t
  last_error : cudaError_t
  deriving DecidableEq

/-- The runtime call `cudaGetLastError()`: it returns the last error and resets it to
`cudaSuccess`. -/
def cudaGetLastError (st : CudaState) : cudaError_t × CudaState :=
  (st.last_error, ⟨st._err, cudaSuccess⟩)

/-- How a call of `_cuda_safe_mem` ends: it returns, or the process is ended by
`exit(EXIT_FAILURE)`. -/
inductive Outcome where
  | returns (st : CudaState)
  | exit_failure (st : CudaState)
  deriving DecidableEq

/-- The lines printed by a call and the way it ends. -/
structure CudaResult where
  out : List CudaMsg
  outcome : Outcome
  deriving DecidableEq

/-- The function `_cuda_safe_mem(err, file, line)`. -/
def _cuda_safe_mem (st : CudaState) (err : cudaError_t) (file : String) (line : Nat) :
    CudaResult :=
  if cudaSuccess ≠ err then
    ⟨[CudaMsg.memory_error file line, CudaMsg.cuda_error err] ++
        (if err = cudaErrorInvalidValue then [CudaMsg.zero_memory_at file line] else []),
      Outcome.exit_failure st⟩
  else
    let st1 : CudaState := ⟨(cudaGetLastError st).1, (cudaGetLastError st).2.last_error⟩
    if st1._err ≠ cudaSuccess then
      ⟨[CudaMsg.found_during file line, CudaMsg.cuda_error err] ++
          (if st1._err = cudaErrorInvalidValue then [CudaMsg.zero_memory_before file line]
            else []),
        Outcome.exit_failure st1⟩
    else
      ⟨[], Outcome.returns st1⟩

/-! ## The device particle buffer -/

end CudaCommon

namespace LJ

/-! ## Theorems: the pair force -/

/-- C1: beyond the cutoff (`dist ≥ LJ_cut + LJ_offset`) the call returns both particles as
they were, all three force components included, and writes no message at all. -/
theorem add_lj_pair_force_beyond_cutoff {K : Type} [LinearOrderedField K] (g : Globals K)
    (p1 p2 : Particle K) (ia_params : IA_parameters K) (d : Fin 3 → K) (dist : K)
    (h : ia_params.LJ_cut + ia_params.LJ_offset ≤ dist) :
    (add_lj_pair_force g p1 p2 ia_params d dist).p1 = p1 ∧
    (add_lj_pair_force g p1 p2 ia_params d dist).p2 = p2 ∧
    (∀ k, (add_lj_pair_force g p1 p2 ia_params d dist).p1.f k = p1.f k ∧
      (add_lj_pair_force g p1 p2 ia_params d dist).p2.f k = p2.f k) ∧
    (add_lj_pair_force g p1 p2 ia_params d dist).out = [] := by
  have hn : ¬ dist < ia_params.LJ_cut + ia_params.LJ_offset := not_lt.mpr h
  simp [add_lj_pair_force, hn]

/-- Witness of C1: cutoff 5/2, offset 0, distance 3. -/
theorem add_lj_pair_force_beyond_cutoff_witness :
    ((⟨1, 1, 5 / 2, 0, 0⟩ : IA_parameters ℚ).LJ_cut +
        (⟨1, 1, 5 / 2, 0, 0⟩ : IA_parameters ℚ).LJ_offset ≤ 3) ∧
    (add_lj_pair_force (⟨0, 1 / 100, 1, false, false⟩ : Globals ℚ)
        ⟨⟨1⟩, fun _ => 7⟩ ⟨⟨2⟩, fun _ => -4⟩ ⟨1, 1, 5 / 2, 0, 0⟩
        (fun _ => 2) 3).out = [] :=
  ⟨by norm_num,
    (add_lj_pair_force_beyond_cutoff ⟨0, 1 / 100, 1, false, false⟩
      ⟨⟨1⟩, fun _ => 7⟩ ⟨⟨2⟩, fun _ => -4⟩ ⟨1, 1, 5 / 2, 0, 0⟩ (fun _ => 2) 3
      (by norm_num)).2.2.2⟩

/-- C3: the uncapped regime.  Inside the cutoff and with `r_off = dist - LJ_offset` above
the cap radius (in particular with cap radius 0 and `r_off > 0`), component `k` of `p1.f`
becomes its old value plus `fac * d[k]` and that of `p2.f` its old value minus `fac * d[k]`,
where `fac = 48 eps frac6 (frac6 - 1/2) frac2 (r_off/dist)`, `frac2 = (sig/r_off)^2`,
`frac6 = frac2^3`. -/
theorem add_lj_pair_force_uncapped {K : Type} [LinearOrderedField K] (g : Globals K)
    (p1 p2 : Particle K) (ia_params : IA_parameters K) (d : Fin 3 → K) (dist : K)
    (hcut : dist < ia_params.LJ_cut + ia_params.LJ_offset)
    (hreg : ia_params.LJ_capradius < dist - ia_params.LJ_offset ∨
      (ia_params.LJ_capradius = 0 ∧ 0 < dist - ia_params.LJ_offset))
    (k : Fin 3) :
    (add_lj_pair_force g p1 p2 ia_params d dist).p1.f k =
      p1.f k +
        48 * ia_params.LJ_eps * ((ia_params.LJ_sig / (dist - ia_params.LJ_offset)) ^ 2) ^ 3 *
          (((ia_params.LJ_sig / (dist - ia_params.LJ_offset)) ^ 2) ^ 3 - 1 / 2) *
          (ia_params.LJ_sig / (dist - ia_params.LJ_offset)) ^ 2 *
          ((dist - ia_params.LJ_offset) / dist) * d k ∧
    (add_lj_pair_force g p1 p2 ia_params d dist).p2.f k =
      p2.f k -
        48 * ia_params.LJ_eps * ((ia_params.LJ_sig / (dist - ia_params.LJ_offset)) ^ 2) ^ 3 *
          (((ia_params.LJ_sig / (dist - ia_params.LJ_offset)) ^ 2) ^ 3 - 1 / 2) *
          (ia_params.LJ_sig / (dist - ia_params.LJ_offset)) ^ 2 *
          ((dist - ia_params.LJ_offset) / dist) * d k := by
  have h2 : dist - ia_params.LJ_offset > ia_params.LJ_capradius := by
    rcases hreg with h | ⟨h0, hpos⟩
    · exact h
    · rw [h0]; exact hpos
  simp only [add_lj_pair_force, hcut, h2, ↓reduceIte, add_along, SQR]
  constructor <;> ring

/-- Witness of C3: `sig = eps = 1`, cutoff 5/2, no offset, no capping, `dist = 1`, where
`fac = 24`. -/
theorem add_lj_pair_force_uncapped_witness :
    ((1 : ℚ) < (⟨1, 1, 5 / 2, 0, 0⟩ : IA_parameters ℚ).LJ_cut +
        (⟨1, 1, 5 / 2, 0, 0⟩ : IA_parameters ℚ).LJ_offset) ∧
    (add_lj_pair_force (⟨0, 1 / 100, 1, false, false⟩ : Globals ℚ)
        ⟨⟨1⟩, fun _ => 7⟩ ⟨⟨2⟩, fun _ => -4⟩ ⟨1, 1, 5 / 2, 0, 0⟩
        (fun _ => 1 / 2) 1).p1.f 0 = 19 ∧
    (add_lj_pair_force (⟨0, 1 / 100, 1, false, false⟩ : Globals ℚ)
        ⟨⟨1⟩, fun _ => 7⟩ ⟨⟨2⟩, fun _ => -4⟩ ⟨1, 1, 5 / 2, 0, 0⟩
        (fun _ => 1 / 2) 1).p2.f 0 = -16 := by
  have h := add_lj_pair_force_uncapped (⟨0, 1 / 100, 1, false, false⟩ : Globals ℚ)
    ⟨⟨1⟩, fun _ => 7⟩ ⟨⟨2⟩, fun _ => -4⟩ ⟨1, 1, 5 / 2, 0, 0⟩ (fun _ => 1 / 2) 1
    (by norm_num) (Or.inr ⟨rfl, by norm_num⟩) 0
  refine ⟨by norm_num, ?_, ?_⟩
  · rw [h.1]; norm_num
  · rw [h.2]; norm_num

/-- C4: the capped regime.  For `dist > 0` inside the cutoff and `0 < r_off ≤ LJ_capradius`
the force added to `p1` and subtracted from `p2` is `fac * d` for a factor `fac` with
`fac * dist = 48 eps frac6 (frac6 - 1/2) frac2 LJ_capradius`, `frac2 = (sig/LJ_capradius)^2`,
`frac6 = frac2^3`: the product does not depend on `dist` and is the value `lj_force` of the
uncapped law at the cap radius. -/
theorem add_lj_pair_force_capped {K : Type} [LinearOrderedField K] (g : Globals K)
    (p1 p2 : Particle K) (ia_params : IA_parameters K) (d : Fin 3 → K) (dist : K)
    (hpos : 0 < dist) (hcut : dist < ia_params.LJ_cut + ia_params.LJ_offset)
    (_hoff : 0 < dist - ia_params.LJ_offset)
    (hcap : dist - ia_params.LJ_offset ≤ ia_params.LJ_capradius) :
    ∃ fac : K,
      (∀ k, (add_lj_pair_force g p1 p2 ia_params d dist).p1.f k = p1.f k + fac * d k ∧
        (add_lj_pair_force g p1 p2 ia_params d dist).p2.f k = p2.f k - fac * d k) ∧
      fac * dist =
        48 * ia_params.LJ_eps * ((ia_params.LJ_sig / ia_params.LJ_capradius) ^ 2) ^ 3 *
          (((ia_params.LJ_sig / ia_params.LJ_capradius) ^ 2) ^ 3 - 1 / 2) *
          (ia_params.LJ_sig / ia_params.LJ_capradius) ^ 2 * ia_params.LJ_capradius ∧
      fac * dist = lj_force ia_params.LJ_sig ia_params.LJ_eps ia_params.LJ_capradius := by
  have h2 : ¬ dist - ia_params.LJ_offset > ia_params.LJ_capradius := not_lt.mpr hcap
  have h3 : dist > 0 := hpos
  have key : ∀ X c : K, X * (c / dist) * dist = X * c := by
    intro X c
    field_simp
  refine ⟨48 * ia_params.LJ_eps *
      (SQR (ia_params.LJ_sig / ia_params.LJ_capradius) *
        SQR (ia_params.LJ_sig / ia_params.LJ_capradius) *
        SQR (ia_params.LJ_sig / ia_params.LJ_capradius)) *
      (SQR (ia_params.LJ_sig / ia_params.LJ_capradius) *
        SQR (ia_params.LJ_sig / ia_params.LJ_capradius) *
        SQR (ia_params.LJ_sig / ia_params.LJ_capradius) - 1 / 2) *
      SQR (ia_params.LJ_sig / ia_params.LJ_capradius) *
      (ia_params.LJ_capradius / dist), ?_, ?_, ?_⟩
  · intro k
    simp only [add_lj_pair_force, hcut, h2, h3, ↓reduceIte, add_along, and_self]
  · rw [key]
    simp only [SQR]
    ring
  · rw [key]
    simp only [lj_force]

/-- Witness of C4: `sig = eps = 1`, cutoff 5/2, no offset, cap radius 1, `dist = 1/2`. -/
theorem add_lj_pair_force_capped_witness :
    ∃ fac : ℚ,
      (∀ k, (add_lj_pair_force (⟨0, 1 / 100, 1, false, false⟩ : Globals ℚ)
          ⟨⟨1⟩, fun _ => 7⟩ ⟨⟨2⟩, fun _ => -4⟩ ⟨1, 1, 5 / 2, 0, 1⟩
          (fun _ => 1 / 4) (1 / 2)).p1.f k = 7 + fac * (1 / 4)) ∧
      fac * (1 / 2) = 24 := by
  obtain ⟨fac, h1, h2, _⟩ := add_lj_pair_force_capped
    (⟨0, 1 / 100, 1, false, false⟩ : Globals ℚ)
    ⟨⟨1⟩, fun _ => 7⟩ ⟨⟨2⟩, fun _ => -4⟩ ⟨1, 1, 5 / 2, 0, 1⟩ (fun _ => 1 / 4) (1 / 2)
    (by norm_num) (by norm_num) (by norm_num) (by norm_num)
  refine ⟨fac, fun k => (h1 k).1, ?_⟩
  rw [h2]; norm_num

/-! ## Auxiliary facts -/

/-- In the normal branch the forces move by `uncapped_fac * d`. -/
theorem pair_force_normal_branch {K : Type} [LinearOrderedField K] (g : Globals K)
    (p1 p2 : Particle K) (ia_params : IA_parameters K) (d : Fin 3 → K) (dist : K)
    (hcut : dist < ia_params.LJ_cut + ia_params.LJ_offset)
    (hreg : ia_params.LJ_capradius < dist - ia_params.LJ_offset) (k : Fin 3) :
    (add_lj_pair_force g p1 p2 ia_params d dist).p1.f k =
      p1.f k + uncapped_fac ia_params dist * d k ∧
    (add_lj_pair_force g p1 p2 ia_params d dist).p2.f k =
      p2.f k - uncapped_fac ia_params dist * d k := by
  have h2 : dist - ia_params.LJ_offset > ia_params.LJ_capradius := hreg
  simp only [add_lj_pair_force, hcut, h2, ↓reduceIte, add_along, uncapped_fac, and_self]

/-- In the capped branch the forces move by `capped_fac * d`. -/
theorem pair_force_capped_branch {K : Type} [LinearOrderedField K] (g : Globals K)
    (p1 p2 : Particle K) (ia_params : IA_parameters K) (d : Fin 3 → K) (dist : K)
    (hpos : 0 < dist) (hcut : dist < ia_params.LJ_cut + ia_params.LJ_offset)
    (hcap : dist - ia_params.LJ_offset ≤ ia_params.LJ_capradius) (k : Fin 3) :
    (add_lj_pair_force g p1 p2 ia_params d dist).p1.f k =
      p1.f k + capped_fac ia_params dist * d k ∧
    (add_lj_pair_force g p1 p2 ia_params d dist).p2.f k =
      p2.f k - capped_fac ia_params dist * d k := by
  have h2 : ¬ dist - ia_params.LJ_offset > ia_params.LJ_capradius := not_lt.mpr hcap
  have h3 : dist > 0 := hpos
  simp only [add_lj_pair_force, hcut, h2, h3, ↓reduceIte, add_along, capped_fac, and_self]

/-- The factor of the normal branch times the distance is the force law at `r_off`. -/
theorem uncapped_fac_mul_dist {K : Type} [LinearOrderedField K]
    (ia_params : IA_parameters K) (dist : K) (hd : dist ≠ 0) :
    uncapped_fac ia_params dist * dist =
      lj_force ia_params.LJ_sig ia_params.LJ_eps (dist - ia_params.LJ_offset) := by
  have key : ∀ X c : K, X * (c / dist) * dist = X * c := by
    intro X c
    field_simp
  simp only [uncapped_fac, lj_force]
  rw [key]

/-- The force law as one fraction: `48 eps sig^8 (sig^6 - r^6/2) / r^13`. -/
theorem lj_force_eq_div {K : Type} [LinearOrderedField K] (sig eps r : K) (hr : r ≠ 0) :
    lj_force sig eps r = 48 * eps * sig ^ 8 * (sig ^ 6 - r ^ 6 / 2) / r ^ 13 := by
  simp only [lj_force, SQR]
  field_simp
  ring

/-- Strict antitonicity of the force law up to the potential minimum. -/
theorem lj_force_lt_of_lt {K : Type} [LinearOrderedField K] (sig eps r1 r2 : K)
    (hsig : 0 < sig) (heps : 0 < eps) (h1 : 0 < r1) (h12 : r1 < r2)
    (h2 : r2 ^ 6 ≤ 2 * sig ^ 6) : lj_force sig eps r2 < lj_force sig eps r1 := by
  have hr2 : 0 < r2 := lt_trans h1 h12
  rw [lj_force_eq_div sig eps r1 (ne_of_gt h1), lj_force_eq_div sig eps r2 (ne_of_gt hr2)]
  have hc : 0 < 48 * eps * sig ^ 8 := by positivity
  have h6 : r1 ^ 6 < r2 ^ 6 := pow_lt_pow_left₀ h12 (le_of_lt h1) (by norm_num)
  have h13 : r1 ^ 13 < r2 ^ 13 := pow_lt_pow_left₀ h12 (le_of_lt h1) (by norm_num)
  have hN2 : 0 ≤ sig ^ 6 - r2 ^ 6 / 2 := by linarith
  have hN : sig ^ 6 - r2 ^ 6 / 2 < sig ^ 6 - r1 ^ 6 / 2 := by linarith
  have hp1 : 0 < r1 ^ 13 := by positivity
  have hp2 : 0 < r2 ^ 13 := by positivity
  rw [div_lt_div_iff₀ hp2 hp1]
  have e1 : 48 * eps * sig ^ 8 * (sig ^ 6 - r2 ^ 6 / 2) * r1 ^ 13 ≤
      48 * eps * sig ^ 8 * (sig ^ 6 - r2 ^ 6 / 2) * r2 ^ 13 :=
    mul_le_mul_of_nonneg_left (le_of_lt h13) (mul_nonneg (le_of_lt hc) hN2)
  have e2 : 48 * eps * sig ^ 8 * (sig ^ 6 - r2 ^ 6 / 2) * r2 ^ 13 <
      48 * eps * sig ^ 8 * (sig ^ 6 - r1 ^ 6 / 2) * r2 ^ 13 :=
    mul_lt_mul_of_pos_right (mul_lt_mul_of_pos_left hN hc) hp2
  exact lt_of_le_of_lt e1 e2

/-! ## Auxiliary facts: the search loop -/

/-- A loop entered with `step = 0` is left at once. -/
theorem cap_search_loop_done {K : Type} [LinearOrderedField K] (sig eps force_cap : K)
    (n : Nat) (s : CapSearch K) (h : s.step = 0) :
    cap_search_loop sig eps force_cap n s = some s := by
  cases n <;> simp [cap_search_loop, h]

/-- A loop entered with `step ≠ 0` runs the body once and goes on. -/
theorem cap_search_loop_succ {K : Type} [LinearOrderedField K] (sig eps force_cap : K)
    (n : Nat) (s : CapSearch K) (h : s.step ≠ 0) :
    cap_search_loop sig eps force_cap (n + 1) s =
      cap_search_loop sig eps force_cap n (cap_search_body sig eps force_cap s) := by
  simp [cap_search_loop, h]

/-- Without fuel a loop entered with `step ≠ 0` gives no result. -/
theorem cap_search_loop_zero {K : Type} [LinearOrderedField K] (sig eps force_cap : K)
    (s : CapSearch K) (h : s.step ≠ 0) :
    cap_search_loop sig eps force_cap 0 s = none := by
  simp [cap_search_loop, h]

/-- Invariant rule of the search loop: a property that holds at the entry and is kept by
every iteration of the body holds when the loop is left, and then `step = 0`. -/
theorem cap_search_loop_inv {K : Type} [LinearOrderedField K] (sig eps force_cap : K)
    (P : CapSearch K → Prop)
    (hbody : ∀ s, P s → s.step ≠ 0 → P (cap_search_body sig eps force_cap s)) :
    ∀ (n : Nat) (s r : CapSearch K), P s →
      cap_search_loop sig eps force_cap n s = some r → P r ∧ r.step = 0 := by
  intro n
  induction n with
  | zero =>
    intro s r hs h
    by_cases h0 : s.step = 0
    · rw [cap_search_loop_done sig eps force_cap 0 s h0] at h
      cases h
      exact ⟨hs, h0⟩
    · rw [cap_search_loop_zero sig eps force_cap s h0] at h
      cases h
  | succ n ih =>
    intro s r hs h
    by_cases h0 : s.step = 0
    · rw [cap_search_loop_done sig eps force_cap (n + 1) s h0] at h
      cases h
      exact ⟨hs, h0⟩
    · rw [cap_search_loop_succ sig eps force_cap n s h0] at h
      exact ih _ r (hbody s hs h0) h

/-- More fuel does not change the result of a search that was left. -/
theorem cap_search_loop_mono {K : Type} [LinearOrderedField K] (sig eps force_cap : K) :
    ∀ (n : Nat) (s r : CapSearch K), cap_search_loop sig eps force_cap n s = some r →
      ∀ m, n ≤ m → cap_search_loop sig eps force_cap m s = some r := by
  intro n
  induction n with
  | zero =>
    intro s r h m _
    by_cases h0 : s.step = 0
    · rw [cap_search_loop_done sig eps force_cap 0 s h0] at h
      rw [cap_search_loop_done sig eps force_cap m s h0]
      exact h
    · rw [cap_search_loop_zero sig eps force_cap s h0] at h
      cases h
  | succ n ih =>
    intro s r h m hm
    by_cases h0 : s.step = 0
    · rw [cap_search_loop_done sig eps force_cap (n + 1) s h0] at h
      rw [cap_search_loop_done sig eps force_cap m s h0]
      exact h
    · obtain ⟨m, rfl⟩ : ∃ k, m = k + 1 := ⟨m - 1, by omega⟩
      rw [cap_search_loop_succ sig eps force_cap n s h0] at h
      rw [cap_search_loop_succ sig eps force_cap m s h0]
      exact ih _ r h m (by omega)

/-- The result of a search does not depend on the fuel with which it was left. -/
theorem cap_search_loop_fuel_irrel {K : Type} [LinearOrderedField K] (sig eps force_cap : K)
    (n m : Nat) (s r1 r2 : CapSearch K)
    (h1 : cap_search_loop sig eps force_cap n s = some r1)
    (h2 : cap_search_loop sig eps force_cap m s = some r2) : r1 = r2 := by
  have e1 := cap_search_loop_mono sig eps force_cap n s r1 h1 (max n m) (le_max_left n m)
  have e2 := cap_search_loop_mono sig eps force_cap m s r2 h2 (max n m) (le_max_right n m)
  rw [e1] at e2
  exact Option.some.inj e2

/-- The body leaves `step = 0` only through the tolerance test, which keeps `rad`. -/
theorem cap_search_body_exit {K : Type} [LinearOrderedField K] (sig eps force_cap : K)
    (s : CapSearch K) (hs : s.step ≠ 0)
    (h : (cap_search_body sig eps force_cap s).step = 0) :
    s.rad ≠ 0 ∧ (cap_search_body sig eps force_cap s).rad = s.rad ∧
      (cap_search_body sig eps force_cap s).force = some (lj_force sig eps s.rad) ∧
      |lj_force sig eps s.rad - force_cap| < 1 / 1000000 := by
  by_cases hr : s.rad = 0
  · simp [cap_search_body, lj_cap_force, hr] at h
    exact absurd h hs
  · by_cases ht : |lj_force sig eps s.rad - force_cap| < 1 / 1000000
    · refine ⟨hr, ?_, ?_, ht⟩
      · simp only [cap_search_body, lj_cap_force, hr, ↓reduceIte, ht, add_zero]
      · simp only [cap_search_body, lj_cap_force, hr, ↓reduceIte]
    · exfalso
      simp only [cap_search_body, lj_cap_force, hr, ↓reduceIte, ht] at h
      split_ifs at h
      · exact hs (by linarith)
      · exact hs h

/-- The body establishes the postcondition. -/
theorem cap_search_body_CapExit {K : Type} [LinearOrderedField K] (sig eps force_cap : K)
    (s : CapSearch K) (hs : s.step ≠ 0) :
    CapExit sig eps force_cap (cap_search_body sig eps force_cap s) := by
  intro h
  obtain ⟨h1, h2, h3, h4⟩ := cap_search_body_exit sig eps force_cap s hs h
  rw [h2]
  exact ⟨h1, h3, h4⟩

/-- The force law at `r = sig`. -/
theorem lj_force_at_sig {K : Type} [LinearOrderedField K] (sig eps : K) (hsig : sig ≠ 0) :
    lj_force sig eps sig = 24 * eps * sig := by
  simp only [lj_force, SQR, div_self hsig]
  ring

/-- At a negative radius the force law stays below its value at `sig`. -/
theorem lj_force_neg_lt {K : Type} [LinearOrderedField K] (sig eps r : K)
    (hsig : 0 < sig) (heps : 0 < eps) (hr : r < 0) :
    lj_force sig eps r < lj_force sig eps sig := by
  rw [lj_force_at_sig sig eps (ne_of_gt hsig), lj_force_eq_div sig eps r (ne_of_lt hr)]
  have hx : 0 < -r := neg_pos.mpr hr
  have h13 : r ^ 13 = -((-r) ^ 13) := by ring
  have h6 : r ^ 6 = (-r) ^ 6 := by ring
  have hneg : r ^ 13 < 0 := by
    rw [h13]
    exact neg_neg_of_pos (by positivity)
  rw [div_lt_iff_of_neg hneg, h13, h6]
  generalize -r = x at hx
  have hc : 0 < 24 * eps * sig := by positivity
  have key : 0 < 2 * sig ^ 13 - sig ^ 7 * x ^ 6 + x ^ 13 := by
    rcases le_total x sig with hle | hle
    · have e6 : x ^ 6 ≤ sig ^ 6 := pow_le_pow_left₀ (le_of_lt hx) hle 6
      have e : sig ^ 7 * x ^ 6 ≤ sig ^ 7 * sig ^ 6 :=
        mul_le_mul_of_nonneg_left e6 (by positivity)
      have hp : 0 < x ^ 13 := by positivity
      have hs : 0 < sig ^ 13 := by positivity
      have e2 : sig ^ 7 * sig ^ 6 = sig ^ 13 := by ring
      linarith
    · have e7 : sig ^ 7 ≤ x ^ 7 := pow_le_pow_left₀ (le_of_lt hsig) hle 7
      have e : sig ^ 7 * x ^ 6 ≤ x ^ 7 * x ^ 6 :=
        mul_le_mul_of_nonneg_right e7 (by positivity)
      have hs : 0 < sig ^ 13 := by positivity
      have e2 : x ^ 7 * x ^ 6 = x ^ 13 := by ring
      linarith
  have := mul_pos hc key
  nlinarith [this]


/-- The body at `rad = 0`: the NaN keeps `step`. -/
theorem cap_search_body_nan {K : Type} [LinearOrderedField K] (sig eps force_cap : K)
    (s : CapSearch K) (hr : s.rad = 0) :
    (cap_search_body sig eps force_cap s).step = s.step ∧
    (cap_search_body sig eps force_cap s).rad = s.rad + s.step := by
  simp only [cap_search_body, lj_cap_force, hr, ↓reduceIte, and_self]

/-- The body when the tolerance test holds. -/
theorem cap_search_body_stop {K : Type} [LinearOrderedField K] (sig eps force_cap : K)
    (s : CapSearch K) (hr : s.rad ≠ 0)
    (ht : |lj_force sig eps s.rad - force_cap| < 1 / 1000000) :
    (cap_search_body sig eps force_cap s).step = 0 ∧
    (cap_search_body sig eps force_cap s).rad = s.rad := by
  simp only [cap_search_body, lj_cap_force, hr, ↓reduceIte, ht, add_zero, and_self]

/-- The body when the tolerance test fails and the search has overshot. -/
theorem cap_search_body_flip {K : Type} [LinearOrderedField K] (sig eps force_cap : K)
    (s : CapSearch K) (hr : s.rad ≠ 0)
    (ht : ¬ |lj_force sig eps s.rad - force_cap| < 1 / 1000000)
    (hf : (s.step < 0 ∧ force_cap < lj_force sig eps s.rad) ∨
      (s.step > 0 ∧ force_cap > lj_force sig eps s.rad)) :
    (cap_search_body sig eps force_cap s).step = -(s.step / 2) ∧
    (cap_search_body sig eps force_cap s).rad = s.rad + -(s.step / 2) := by
  simp only [cap_search_body, lj_cap_force, hr, ↓reduceIte, ht, hf, and_self]

/-- The body when the tolerance test fails and the search has not overshot. -/
theorem cap_search_body_keep {K : Type} [LinearOrderedField K] (sig eps force_cap : K)
    (s : CapSearch K) (hr : s.rad ≠ 0)
    (ht : ¬ |lj_force sig eps s.rad - force_cap| < 1 / 1000000)
    (hf : ¬ ((s.step < 0 ∧ force_cap < lj_force sig eps s.rad) ∨
      (s.step > 0 ∧ force_cap > lj_force sig eps s.rad))) :
    (cap_search_body sig eps force_cap s).step = s.step ∧
    (cap_search_body sig eps force_cap s).rad = s.rad + s.step := by
  simp only [cap_search_body, lj_cap_force, hr, ↓reduceIte, ht, hf, and_self]

/-- After an overshoot found while descending at a positive radius, the invariant holds
with that radius as the lower mark. -/
theorem CapInv_of_flip_down {K : Type} [LinearOrderedField K] (sig eps force_cap : K)
    (s : CapSearch K) (hr : 0 < s.rad) (hs : s.step < 0)
    (ht : ¬ |lj_force sig eps s.rad - force_cap| < 1 / 1000000)
    (hc : force_cap < lj_force sig eps s.rad) :
    CapInv sig eps force_cap (cap_search_body sig eps force_cap s) := by
  obtain ⟨e1, e2⟩ := cap_search_body_flip sig eps force_cap s (ne_of_gt hr) ht
    (Or.inl ⟨hs, hc⟩)
  have hpos : 0 < -(s.step / 2) := by linarith
  refine Or.inr (Or.inr (Or.inr ⟨?_, s.rad, 1, hr, hc, ?_, fun _ => le_refl 1⟩))
  · rw [e1]; exact ne_of_gt hpos
  · rw [e1, e2, abs_of_pos hpos]
    simp

/-- The body keeps the invariant. -/
theorem cap_search_body_CapInv {K : Type} [LinearOrderedField K] (sig eps force_cap : K)
    (hsig : 0 < sig) (heps : 0 < eps) (s : CapSearch K)
    (h : CapInv sig eps force_cap s) (hs : s.step ≠ 0) :
    CapInv sig eps force_cap (cap_search_body sig eps force_cap s) := by
  rcases h with ⟨h0, _⟩ | ⟨hneg, hrad⟩ | ⟨hneg, hbig⟩ | ⟨_, L, m, hL, hFL, hrad, hm⟩
  · exact absurd h0 hs
  · -- first iteration, at `rad = sig`
    have hr : 0 < s.rad := by rw [hrad]; exact hsig
    by_cases ht : |lj_force sig eps s.rad - force_cap| < 1 / 1000000
    · obtain ⟨e1, e2⟩ := cap_search_body_stop sig eps force_cap s (ne_of_gt hr) ht
      exact Or.inl ⟨e1, by rw [e2]; exact hr⟩
    · by_cases hc : force_cap < lj_force sig eps s.rad
      · exact CapInv_of_flip_down sig eps force_cap s hr hneg ht hc
      · have hf : ¬ ((s.step < 0 ∧ force_cap < lj_force sig eps s.rad) ∨
            (s.step > 0 ∧ force_cap > lj_force sig eps s.rad)) := by
          rintro (⟨_, h1⟩ | ⟨h1, _⟩)
          · exact hc h1
          · exact absurd h1 (not_lt.mpr (le_of_lt hneg))
        obtain ⟨e1, _⟩ := cap_search_body_keep sig eps force_cap s (ne_of_gt hr) ht hf
        refine Or.inr (Or.inr (Or.inl ⟨by rw [e1]; exact hneg, ?_⟩))
        have hle : lj_force sig eps s.rad - force_cap ≤ 0 := by linarith [not_lt.mp hc]
        have habs := not_lt.mp ht
        rw [abs_of_nonpos hle, hrad] at habs
        linarith
  · -- descending with the force cap above `force(sig)`
    by_cases hr0 : s.rad = 0
    · obtain ⟨e1, _⟩ := cap_search_body_nan sig eps force_cap s hr0
      exact Or.inr (Or.inr (Or.inl ⟨by rw [e1]; exact hneg, hbig⟩))
    · have hnn : s.rad < 0 → lj_force sig eps s.rad < force_cap - 1 / 1000000 := by
        intro hlt
        have := lj_force_neg_lt sig eps s.rad hsig heps hlt
        linarith
      by_cases ht : |lj_force sig eps s.rad - force_cap| < 1 / 1000000
      · obtain ⟨e1, e2⟩ := cap_search_body_stop sig eps force_cap s hr0 ht
        refine Or.inl ⟨e1, ?_⟩
        rw [e2]
        rcases lt_or_gt_of_ne hr0 with hlt | hgt
        · have := hnn hlt
          have := (abs_lt.mp ht).1
          linarith
        · exact hgt
      · by_cases hc : force_cap < lj_force sig eps s.rad
        · have hr : 0 < s.rad := by
            rcases lt_or_gt_of_ne hr0 with hlt | hgt
            · have := hnn hlt
              linarith
            · exact hgt
          exact CapInv_of_flip_down sig eps force_cap s hr hneg ht hc
        · have hf : ¬ ((s.step < 0 ∧ force_cap < lj_force sig eps s.rad) ∨
              (s.step > 0 ∧ force_cap > lj_force sig eps s.rad)) := by
            rintro (⟨_, h1⟩ | ⟨h1, _⟩)
            · exact hc h1
            · exact absurd h1 (not_lt.mpr (le_of_lt hneg))
          obtain ⟨e1, _⟩ := cap_search_body_keep sig eps force_cap s hr0 ht hf
          exact Or.inr (Or.inr (Or.inl ⟨by rw [e1]; exact hneg, hbig⟩))
  · -- a lower mark `L` is known
    have habs : 0 < |s.step| := abs_pos.mpr hs
    have hr : 0 < s.rad := by
      rw [hrad]
      have : (0 : K) ≤ (m : K) * |s.step| := by positivity
      linarith
    by_cases ht : |lj_force sig eps s.rad - force_cap| < 1 / 1000000
    · obtain ⟨e1, e2⟩ := cap_search_body_stop sig eps force_cap s (ne_of_gt hr) ht
      exact Or.inl ⟨e1, by rw [e2]; exact hr⟩
    · rcases lt_or_gt_of_ne hs with hneg | hpos
      · by_cases hc : force_cap < lj_force sig eps s.rad
        · exact CapInv_of_flip_down sig eps force_cap s hr hneg ht hc
        · have hf : ¬ ((s.step < 0 ∧ force_cap < lj_force sig eps s.rad) ∨
              (s.step > 0 ∧ force_cap > lj_force sig eps s.rad)) := by
            rintro (⟨_, h1⟩ | ⟨h1, _⟩)
            · exact hc h1
            · exact absurd h1 (not_lt.mpr (le_of_lt hneg))
          obtain ⟨e1, e2⟩ := cap_search_body_keep sig eps force_cap s (ne_of_gt hr) ht hf
          have hm1 : 1 ≤ m := by
            rcases Nat.eq_zero_or_pos m with h0 | h1
            · exfalso
              rw [h0] at hrad
              simp only [Nat.cast_zero, zero_mul, add_zero] at hrad
              rw [hrad] at hc
              exact hc hFL
            · exact h1
          refine Or.inr (Or.inr (Or.inr ⟨by rw [e1]; exact hs, L, m - 1, hL, hFL, ?_, ?_⟩))
          · rw [e1, e2, hrad, abs_of_neg hneg, Nat.cast_sub hm1]
            push_cast
            ring
          · intro hp
            rw [e1] at hp
            exact absurd hp (not_lt.mpr (le_of_lt hneg))
      · have hm1 : 1 ≤ m := hm hpos
        by_cases hc : force_cap > lj_force sig eps s.rad
        · obtain ⟨e1, e2⟩ := cap_search_body_flip sig eps force_cap s (ne_of_gt hr) ht
            (Or.inr ⟨hpos, hc⟩)
          have hneg2 : -(s.step / 2) < 0 := by linarith
          refine Or.inr (Or.inr (Or.inr ⟨by rw [e1]; exact ne_of_lt hneg2, L, 2 * m - 1, hL,
            hFL, ?_, ?_⟩))
          · rw [e1, e2, hrad, abs_of_pos hpos, abs_of_neg hneg2,
              Nat.cast_sub (by omega : 1 ≤ 2 * m)]
            push_cast
            ring
          · intro hp
            rw [e1] at hp
            exact absurd hp (not_lt.mpr (le_of_lt hneg2))
        · have hf : ¬ ((s.step < 0 ∧ force_cap < lj_force sig eps s.rad) ∨
              (s.step > 0 ∧ force_cap > lj_force sig eps s.rad)) := by
            rintro (⟨h1, _⟩ | ⟨_, h1⟩)
            · exact absurd h1 (not_lt.mpr (le_of_lt hpos))
            · exact hc h1
          obtain ⟨e1, e2⟩ := cap_search_body_keep sig eps force_cap s (ne_of_gt hr) ht hf
          refine Or.inr (Or.inr (Or.inr ⟨by rw [e1]; exact hs, L, m + 1, hL, hFL, ?_,
            fun _ => Nat.le_add_left 1 m⟩))
          rw [e1, e2, hrad, abs_of_pos hpos]
          push_cast
          ring

/-- A search with positive `sig`, `eps` is left at a positive radius. -/
theorem cap_search_loop_rad_pos {K : Type} [LinearOrderedField K] (sig eps force_cap : K)
    (hsig : 0 < sig) (heps : 0 < eps) (fuel : Nat) (r : CapSearch K)
    (h : cap_search_loop sig eps force_cap fuel (cap_search_init sig) = some r) :
    0 < r.rad := by
  have h0 : CapInv sig eps force_cap (cap_search_init sig) := by
    refine Or.inr (Or.inl ⟨?_, rfl⟩)
    simp only [cap_search_init]
    linarith
  obtain ⟨hI, hstep⟩ := cap_search_loop_inv sig eps force_cap (CapInv sig eps force_cap)
    (fun s hs hne => cap_search_body_CapInv sig eps force_cap hsig heps s hs hne)
    fuel _ r h0 h
  rcases hI with ⟨_, hp⟩ | ⟨hneg, _⟩ | ⟨hneg, _⟩ | ⟨hne, _⟩
  · exact hp
  · exact absurd hstep (ne_of_lt hneg)
  · exact absurd hstep (ne_of_lt hneg)
  · exact absurd hstep hne

/-! ## Auxiliary facts: the pass over the table -/

/-- The derived radius does not read the cap radius of the entry. -/
theorem cap_radius_of_with_capradius {K : Type} [LinearOrderedField K] (fuel : Nat)
    (force_cap : K) (p : IA_parameters K) (v : K) :
    cap_radius_of fuel force_cap (with_capradius p v) = cap_radius_of fuel force_cap p := rfl

/-- The derived radius is a function of `sig`, `eps` and the force cap. -/
theorem cap_radius_of_congr {K : Type} [LinearOrderedField K] (fuel : Nat)
    (force_cap : K) (p q : IA_parameters K) (hs : p.LJ_sig = q.LJ_sig)
    (he : p.LJ_eps = q.LJ_eps) :
    cap_radius_of fuel force_cap p = cap_radius_of fuel force_cap q := by
  simp only [cap_radius_of, hs, he]

/-- The derived radius does not depend on the fuel with which it was found. -/
theorem cap_radius_of_fuel_irrel {K : Type} [LinearOrderedField K] (n m : Nat)
    (force_cap : K) (p : IA_parameters K) (r1 r2 : K)
    (h1 : cap_radius_of n force_cap p = some r1)
    (h2 : cap_radius_of m force_cap p = some r2) : r1 = r2 := by
  unfold cap_radius_of at h1 h2
  split_ifs at h1 h2 with hc
  · rw [Option.map_eq_some'] at h1 h2
    obtain ⟨s1, e1, rfl⟩ := h1
    obtain ⟨s2, e2, rfl⟩ := h2
    rw [cap_search_loop_fuel_irrel _ _ _ n m _ s1 s2 e1 e2]
  · rw [← Option.some.inj h1, ← Option.some.inj h2]

/-- The body of the inner loop writes the derived radius on the entry `(i,j)`. -/
theorem calc_lj_cap_entry_some {K : Type} [LinearOrderedField K] (fuel : Nat)
    (g : Globals K) (force_cap : K) (i j : Nat) (st st1 : CapPass K)
    (h : calc_lj_cap_entry fuel g force_cap i j st = some st1) :
    ∃ r, cap_radius_of fuel force_cap (st.table i j) = some r ∧
      st1.table = set_capradius st.table i j r := by
  unfold calc_lj_cap_entry at h
  by_cases hc : force_cap > 0
  · simp only [hc, ↓reduceIte] at h
    cases hl : cap_search_loop (st.table i j).LJ_sig (st.table i j).LJ_eps force_cap fuel
        (cap_search_init (st.table i j).LJ_sig) with
    | none => rw [hl] at h; cases h
    | some s =>
      rw [hl] at h
      refine ⟨s.rad, ?_, ?_⟩
      · simp only [cap_radius_of, hc, ↓reduceIte, hl, Option.map_some']
      · rw [← Option.some.inj h]
  · simp only [hc, ↓reduceIte] at h
    refine ⟨0, ?_, ?_⟩
    · simp only [cap_radius_of, hc, ↓reduceIte]
    · rw [← Option.some.inj h]

/-- The body of the inner loop ends whenever the radius of its entry is found. -/
theorem calc_lj_cap_entry_of_radius {K : Type} [LinearOrderedField K] (fuel : Nat)
    (g : Globals K) (force_cap : K) (i j : Nat) (st : CapPass K) (r : K)
    (h : cap_radius_of fuel force_cap (st.table i j) = some r) :
    ∃ st1, calc_lj_cap_entry fuel g force_cap i j st = some st1 := by
  unfold cap_radius_of at h
  unfold calc_lj_cap_entry
  by_cases hc : force_cap > 0
  · simp only [hc, ↓reduceIte] at h ⊢
    rw [Option.map_eq_some'] at h
    obtain ⟨s, e, _⟩ := h
    rw [e]
    exact ⟨_, rfl⟩
  · simp only [hc, ↓reduceIte]
    exact ⟨_, rfl⟩

/-- Writing the derived radius on `(i,j)` is an update of exactly that entry. -/
theorem Updated_set_capradius {K : Type} [LinearOrderedField K] (fuel : Nat)
    (force_cap : K) (t : IA_table K) (i j : Nat) (r : K)
    (h : cap_radius_of fuel force_cap (t i j) = some r) :
    Updated fuel force_cap (fun a b => a = i ∧ b = j) t (set_capradius t i j r) := by
  intro a b
  constructor
  · rintro ⟨rfl, rfl⟩
    exact ⟨r, h, by simp [set_capradius]⟩
  · intro hn
    simp [set_capradius, hn]

/-- Nothing selected, nothing changed. -/
theorem Updated_refl {K : Type} [LinearOrderedField K] (fuel : Nat) (force_cap : K)
    (t : IA_table K) : Updated fuel force_cap (fun _ _ => False) t t := by
  intro a b
  exact ⟨fun h => h.elim, fun _ => rfl⟩

/-- The selection can be replaced by an equivalent one. -/
theorem Updated_congr {K : Type} [LinearOrderedField K] (fuel : Nat) (force_cap : K)
    (S T : Nat → Nat → Prop) (t u : IA_table K) (hST : ∀ a b, S a b ↔ T a b)
    (h : Updated fuel force_cap S t u) : Updated fuel force_cap T t u := by
  intro a b
  exact ⟨fun hT => (h a b).1 ((hST a b).2 hT), fun hT => (h a b).2 (fun hS => hT ((hST a b).1 hS))⟩

/-- An update keeps the derived radius of every entry. -/
theorem Updated_cap_radius_of {K : Type} [LinearOrderedField K] (fuel : Nat)
    (force_cap : K) (S : Nat → Nat → Prop) (t u : IA_table K)
    (h : Updated fuel force_cap S t u) (n : Nat) (a b : Nat) :
    cap_radius_of n force_cap (u a b) = cap_radius_of n force_cap (t a b) := by
  by_cases hS : S a b
  · obtain ⟨r, _, e⟩ := (h a b).1 hS
    rw [e, cap_radius_of_with_capradius]
  · rw [(h a b).2 hS]

/-- Two updates in a row are one update of the union of the selections. -/
theorem Updated_trans {K : Type} [LinearOrderedField K] (fuel : Nat) (force_cap : K)
    (S T : Nat → Nat → Prop) (t u v : IA_table K)
    (h1 : Updated fuel force_cap S t u) (h2 : Updated fuel force_cap T u v) :
    Updated fuel force_cap (fun a b => S a b ∨ T a b) t v := by
  intro a b
  constructor
  · intro hST
    by_cases hT : T a b
    · obtain ⟨r, hr, e⟩ := (h2 a b).1 hT
      rw [Updated_cap_radius_of fuel force_cap S t u h1 fuel a b] at hr
      refine ⟨r, hr, ?_⟩
      rw [e]
      by_cases hS : S a b
      · obtain ⟨r0, _, e0⟩ := (h1 a b).1 hS
        rw [e0]
        rfl
      · rw [(h1 a b).2 hS]
    · have hS : S a b := hST.resolve_right hT
      obtain ⟨r0, hr0, e0⟩ := (h1 a b).1 hS
      exact ⟨r0, hr0, by rw [(h2 a b).2 hT, e0]⟩
  · intro hn
    have hS : ¬ S a b := fun hS => hn (Or.inl hS)
    have hT : ¬ T a b := fun hT => hn (Or.inr hT)
    rw [(h2 a b).2 hT, (h1 a b).2 hS]

/-- The inner loop over a list of second indices updates the entries `(i,j)`, `j` in the
list. -/
theorem calc_lj_cap_row_list_Updated {K : Type} [LinearOrderedField K] (fuel : Nat)
    (g : Globals K) (force_cap : K) (i : Nat) :
    ∀ (js : List Nat) (st st1 : CapPass K),
      js.foldlM (fun acc j => calc_lj_cap_entry fuel g force_cap i j acc) st = some st1 →
      Updated fuel force_cap (fun a b => a = i ∧ b ∈ js) st.table st1.table := by
  intro js
  induction js with
  | nil =>
    intro st st1 h
    simp only [List.foldlM_nil] at h
    cases h
    exact Updated_congr fuel force_cap _ _ _ _ (by simp) (Updated_refl fuel force_cap st.table)
  | cons j js ih =>
    intro st st1 h
    simp only [List.foldlM_cons] at h
    cases he : calc_lj_cap_entry fuel g force_cap i j st with
    | none => rw [he] at h; cases h
    | some st0 =>
      rw [he] at h
      obtain ⟨r, hr, e⟩ := calc_lj_cap_entry_some fuel g force_cap i j st st0 he
      have h1 := Updated_set_capradius fuel force_cap st.table i j r hr
      rw [← e] at h1
      have h2 := ih st0 st1 h
      refine Updated_congr fuel force_cap _ _ _ _ ?_
        (Updated_trans fuel force_cap _ _ _ _ _ h1 h2)
      intro a b
      simp only [List.mem_cons]
      tauto

/-- The inner loop ends whenever the radius of each of its entries is found. -/
theorem calc_lj_cap_row_list_some {K : Type} [LinearOrderedField K] (fuel : Nat)
    (g : Globals K) (force_cap : K) (i : Nat) :
    ∀ (js : List Nat) (st : CapPass K),
      (∀ b ∈ js, ∃ r, cap_radius_of fuel force_cap (st.table i b) = some r) →
      ∃ st1, js.foldlM (fun acc j => calc_lj_cap_entry fuel g force_cap i j acc) st =
        some st1 := by
  intro js
  induction js with
  | nil =>
    intro st _
    exact ⟨st, rfl⟩
  | cons j js ih =>
    intro st h
    obtain ⟨r, hr⟩ := h j (List.mem_cons_self j js)
    obtain ⟨st0, he⟩ := calc_lj_cap_entry_of_radius fuel g force_cap i j st r hr
    obtain ⟨r0, hr0, e⟩ := calc_lj_cap_entry_some fuel g force_cap i j st st0 he
    have hU := Updated_set_capradius fuel force_cap st.table i j r0 hr0
    rw [← e] at hU
    have h0 : ∀ b ∈ js, ∃ r, cap_radius_of fuel force_cap (st0.table i b) = some r := by
      intro b hb
      rw [Updated_cap_radius_of fuel force_cap _ _ _ hU fuel i b]
      exact h b (List.mem_cons_of_mem j hb)
    obtain ⟨st1, h1⟩ := ih st0 h0
    refine ⟨st1, ?_⟩
    simp only [List.foldlM_cons, he]
    exact h1

/-- The outer loop over a list of first indices updates the entries `(i,j)`, `i` in the
list and `j < n_particle_types`. -/
theorem calc_lj_cap_rows_Updated {K : Type} [LinearOrderedField K] (fuel : Nat)
    (g : Globals K) (force_cap : K) :
    ∀ (is : List Nat) (st st1 : CapPass K),
      is.foldlM (fun acc i => calc_lj_cap_row fuel g force_cap i acc) st = some st1 →
      Updated fuel force_cap (fun a b => a ∈ is ∧ b < g.n_particle_types)
        st.table st1.table := by
  intro is
  induction is with
  | nil =>
    intro st st1 h
    simp only [List.foldlM_nil] at h
    cases h
    exact Updated_congr fuel force_cap _ _ _ _ (by simp) (Updated_refl fuel force_cap st.table)
  | cons i is ih =>
    intro st st1 h
    simp only [List.foldlM_cons] at h
    cases he : calc_lj_cap_row fuel g force_cap i st with
    | none => rw [he] at h; cases h
    | some st0 =>
      rw [he] at h
      have h1 := calc_lj_cap_row_list_Updated fuel g force_cap i _ st st0 he
      have h2 := ih st0 st1 h
      refine Updated_congr fuel force_cap _ _ _ _ ?_
        (Updated_trans fuel force_cap _ _ _ _ _ h1 h2)
      intro a b
      simp only [List.mem_cons, List.mem_range]
      tauto

/-- The outer loop ends whenever the radius of each of its entries is found. -/
theorem calc_lj_cap_rows_some {K : Type} [LinearOrderedField K] (fuel : Nat)
    (g : Globals K) (force_cap : K) :
    ∀ (is : List Nat) (st : CapPass K),
      (∀ a ∈ is, ∀ b, b < g.n_particle_types →
        ∃ r, cap_radius_of fuel force_cap (st.table a b) = some r) →
      ∃ st1, is.foldlM (fun acc i => calc_lj_cap_row fuel g force_cap i acc) st =
        some st1 := by
  intro is
  induction is with
  | nil =>
    intro st _
    exact ⟨st, rfl⟩
  | cons i is ih =>
    intro st h
    obtain ⟨st0, he⟩ := calc_lj_cap_row_list_some fuel g force_cap i
      (List.range g.n_particle_types) st
      (fun b hb => h i (List.mem_cons_self i is) b (List.mem_range.mp hb))
    have hU := calc_lj_cap_row_list_Updated fuel g force_cap i _ st st0 he
    have h0 : ∀ a ∈ is, ∀ b, b < g.n_particle_types →
        ∃ r, cap_radius_of fuel force_cap (st0.table a b) = some r := by
      intro a ha b hb
      rw [Updated_cap_radius_of fuel force_cap _ _ _ hU fuel a b]
      exact h a (List.mem_cons_of_mem i ha) b hb
    obtain ⟨st1, h1⟩ := ih st0 h0
    refine ⟨st1, ?_⟩
    simp only [List.foldlM_cons]
    have he2 : calc_lj_cap_row fuel g force_cap i st = some st0 := he
    rw [he2]
    exact h1

/-- A run of `calc_lj_cap_radii` that ends has written the derived radius on every entry
`(i,j)` with `i, j < n_particle_types` and changed nothing else in the table. -/
theorem calc_lj_cap_radii_Updated {K : Type} [LinearOrderedField K] (fuel : Nat)
    (g : Globals K) (force_cap : K) (t : IA_table K) (st : CapPass K)
    (h : calc_lj_cap_radii fuel g force_cap t = some st) :
    Updated fuel force_cap
      (fun a b => a < g.n_particle_types ∧ b < g.n_particle_types) t st.table := by
  have h1 := calc_lj_cap_rows_Updated fuel g force_cap (List.range g.n_particle_types)
    ⟨t, 0, some 0, 0, []⟩ st h
  exact Updated_congr fuel force_cap _ _ _ _ (by simp) h1

/-- A run of `calc_lj_cap_radii` ends whenever the radius of every entry `(i,j)` with
`i, j < n_particle_types` is found. -/
theorem calc_lj_cap_radii_some {K : Type} [LinearOrderedField K] (fuel : Nat)
    (g : Globals K) (force_cap : K) (t : IA_table K)
    (h : ∀ a b, a < g.n_particle_types → b < g.n_particle_types →
      ∃ r, cap_radius_of fuel force_cap (t a b) = some r) :
    ∃ st, calc_lj_cap_radii fuel g force_cap t = some st :=
  calc_lj_cap_rows_some fuel g force_cap (List.range g.n_particle_types)
    ⟨t, 0, some 0, 0, []⟩ (fun a ha b hb => h a b (List.mem_range.mp ha) hb)

/-- The radius derived with a positive force cap for an entry with `sig ≠ 0` is not zero
and meets the tolerance. -/
theorem cap_radius_of_postcondition {K : Type} [LinearOrderedField K] (fuel : Nat)
    (force_cap : K) (p : IA_parameters K) (r : K) (hcap : 0 < force_cap)
    (hsig : p.LJ_sig ≠ 0) (h : cap_radius_of fuel force_cap p = some r) :
    r ≠ 0 ∧ |lj_force p.LJ_sig p.LJ_eps r - force_cap| < 1 / 1000000 := by
  have hc : force_cap > 0 := hcap
  simp only [cap_radius_of, hc, ↓reduceIte, Option.map_eq_some'] at h
  obtain ⟨s, hl, rfl⟩ := h
  have h0 : (cap_search_init p.LJ_sig).step ≠ 0 := by
    simp only [cap_search_init]
    exact mul_ne_zero (by norm_num) hsig
  have hP : CapExit p.LJ_sig p.LJ_eps force_cap (cap_search_init p.LJ_sig) :=
    fun h => absurd h h0
  obtain ⟨hs, hstep⟩ := cap_search_loop_inv p.LJ_sig p.LJ_eps force_cap
    (CapExit p.LJ_sig p.LJ_eps force_cap)
    (fun s _ hs => cap_search_body_CapExit p.LJ_sig p.LJ_eps force_cap s hs)
    fuel _ s hP hl
  obtain ⟨h1, _, h3⟩ := hs hstep
  exact ⟨h1, h3⟩

/-- The radius derived for an entry with `sig = 0` is 0: the loop is not entered. -/
theorem cap_radius_of_sig_zero {K : Type} [LinearOrderedField K] (fuel : Nat)
    (force_cap : K) (p : IA_parameters K) (hsig : p.LJ_sig = 0) :
    cap_radius_of fuel force_cap p = some 0 := by
  unfold cap_radius_of
  split_ifs
  · rw [hsig, cap_search_loop_done _ _ _ _ _ (by simp [cap_search_init])]
    simp [cap_search_init]
  · rfl

/-- With a force cap that is not positive the body of the inner loop keeps the locals. -/
theorem calc_lj_cap_entry_locals {K : Type} [LinearOrderedField K] (fuel : Nat)
    (g : Globals K) (force_cap : K) (i j : Nat) (st st1 : CapPass K)
    (hcap : force_cap ≤ 0) (h : calc_lj_cap_entry fuel g force_cap i j st = some st1) :
    st1.rad = st.rad ∧ st1.force = st.force ∧ st1.cnt = st.cnt := by
  have hc : ¬ force_cap > 0 := not_lt.mpr hcap
  simp only [calc_lj_cap_entry, hc, ↓reduceIte] at h
  rw [← Option.some.inj h]
  exact ⟨rfl, rfl, rfl⟩

/-- With a force cap that is not positive the inner loop keeps the locals. -/
theorem calc_lj_cap_row_list_locals {K : Type} [LinearOrderedField K] (fuel : Nat)
    (g : Globals K) (force_cap : K) (i : Nat) (hcap : force_cap ≤ 0) :
    ∀ (js : List Nat) (st st1 : CapPass K),
      js.foldlM (fun acc j => calc_lj_cap_entry fuel g force_cap i j acc) st = some st1 →
      st1.rad = st.rad ∧ st1.force = st.force ∧ st1.cnt = st.cnt := by
  intro js
  induction js with
  | nil =>
    intro st st1 h
    simp only [List.foldlM_nil] at h
    cases h
    exact ⟨rfl, rfl, rfl⟩
  | cons j js ih =>
    intro st st1 h
    simp only [List.foldlM_cons] at h
    cases he : calc_lj_cap_entry fuel g force_cap i j st with
    | none => rw [he] at h; cases h
    | some st0 =>
      rw [he] at h
      obtain ⟨a1, a2, a3⟩ := calc_lj_cap_entry_locals fuel g force_cap i j st st0 hcap he
      obtain ⟨b1, b2, b3⟩ := ih st0 st1 h
      exact ⟨b1.trans a1, b2.trans a2, b3.trans a3⟩

/-- With a force cap that is not positive the outer loop keeps the locals. -/
theorem calc_lj_cap_rows_locals {K : Type} [LinearOrderedField K] (fuel : Nat)
    (g : Globals K) (force_cap : K) (hcap : force_cap ≤ 0) :
    ∀ (is : List Nat) (st st1 : CapPass K),
      is.foldlM (fun acc i => calc_lj_cap_row fuel g force_cap i acc) st = some st1 →
      st1.rad = st.rad ∧ st1.force = st.force ∧ st1.cnt = st.cnt := by
  intro is
  induction is with
  | nil =>
    intro st st1 h
    simp only [List.foldlM_nil] at h
    cases h
    exact ⟨rfl, rfl, rfl⟩
  | cons i is ih =>
    intro st st1 h
    simp only [List.foldlM_cons] at h
    cases he : calc_lj_cap_row fuel g force_cap i st with
    | none => rw [he] at h; cases h
    | some st0 =>
      rw [he] at h
      obtain ⟨a1, a2, a3⟩ := calc_lj_cap_row_list_locals fuel g force_cap i hcap _ st st0 he
      obtain ⟨b1, b2, b3⟩ := ih st0 st1 h
      exact ⟨b1.trans a1, b2.trans a2, b3.trans a3⟩

/-- The radius derived with positive `sig`, `eps` and force cap is positive. -/
theorem cap_radius_of_pos {K : Type} [LinearOrderedField K] (fuel : Nat)
    (force_cap : K) (p : IA_parameters K) (r : K) (hcap : 0 < force_cap)
    (hsig : 0 < p.LJ_sig) (heps : 0 < p.LJ_eps)
    (h : cap_radius_of fuel force_cap p = some r) : 0 < r := by
  have hc : force_cap > 0 := hcap
  simp only [cap_radius_of, hc, ↓reduceIte, Option.map_eq_some'] at h
  obtain ⟨s, hl, rfl⟩ := h
  exact cap_search_loop_rad_pos p.LJ_sig p.LJ_eps force_cap hsig heps fuel s hl

/-- C6 (as amended): for a positive force cap, whenever the body of the inner loop ends for
a type pair whose `sig` is not zero, the radius written to `LJ_capradius` is not zero and
satisfies `|force(r) - force_cap| < 1e-6`; for a type pair with `sig = 0` the search loop
is not entered and the radius written is 0. -/
theorem calc_lj_cap_entry_postcondition {K : Type} [LinearOrderedField K] (fuel : Nat)
    (g : Globals K) (force_cap : K) (i j : Nat) (st st1 : CapPass K)
    (hcap : 0 < force_cap)
    (h : calc_lj_cap_entry fuel g force_cap i j st = some st1) :
    ((st.table i j).LJ_sig ≠ 0 →
      (st1.table i j).LJ_capradius ≠ 0 ∧
      |lj_force (st.table i j).LJ_sig (st.table i j).LJ_eps (st1.table i j).LJ_capradius -
        force_cap| < 1 / 1000000) ∧
    ((st.table i j).LJ_sig = 0 → (st1.table i j).LJ_capradius = 0) := by
  obtain ⟨r, hr, e⟩ := calc_lj_cap_entry_some fuel g force_cap i j st st1 h
  have hw : (st1.table i j).LJ_capradius = r := by
    rw [e]
    simp [set_capradius, with_capradius]
  rw [hw]
  constructor
  · intro hsig
    exact cap_radius_of_postcondition fuel force_cap _ r hcap hsig hr
  · intro hsig
    rw [cap_radius_of_sig_zero fuel force_cap _ hsig] at hr
    exact (Option.some.inj hr).symm

/-- Witness of C6: `sig = eps = 1` and `force_cap = 24 = force(sig)`; the search is left in
its first iteration and the radius 1 is written. -/
theorem calc_lj_cap_entry_postcondition_witness :
    calc_lj_cap_entry 1 (⟨0, 1 / 100, 1, false, false⟩ : Globals ℚ) 24 0 0
        ⟨fun _ _ => ⟨1, 1, 5 / 2, 0, 0⟩, 0, some 0, 0, []⟩ =
      some ⟨set_capradius (fun _ _ => ⟨1, 1, 5 / 2, 0, 0⟩) 0 0 1, 1, some 24, 1, []⟩ ∧
    ((1 : ℚ) ≠ 0 ∧ |lj_force (1 : ℚ) 1 1 - 24| < 1 / 1000000) := by
  have e : calc_lj_cap_entry 1 (⟨0, 1 / 100, 1, false, false⟩ : Globals ℚ) 24 0 0
        ⟨fun _ _ => ⟨1, 1, 5 / 2, 0, 0⟩, 0, some 0, 0, []⟩ =
      some ⟨set_capradius (fun _ _ => ⟨1, 1, 5 / 2, 0, 0⟩) 0 0 1, 1, some 24, 1, []⟩ := by
    norm_num [calc_lj_cap_entry, cap_search_loop, cap_search_body, cap_search_init,
      lj_cap_force, lj_force, SQR, force_trace_out]
  have h := calc_lj_cap_entry_postcondition 1 (⟨0, 1 / 100, 1, false, false⟩ : Globals ℚ) 24
    0 0 ⟨fun _ _ => ⟨1, 1, 5 / 2, 0, 0⟩, 0, some 0, 0, []⟩
    ⟨set_capradius (fun _ _ => ⟨1, 1, 5 / 2, 0, 0⟩) 0 0 1, 1, some 24, 1, []⟩
    (by norm_num) e
  have h1 := h.1 (by norm_num)
  simp only [set_capradius, with_capradius, and_self, ↓reduceIte] at h1
  exact ⟨e, h1⟩

/-- Counterexample to C6 as stated (every `sig`): for an entry with `sig = 0`, `eps = 1`
and `force_cap = 1` the loop `while(step != 0)` is left before its first iteration, since
`step = -0.1 * sig = 0`; the radius written is `rad = sig = 0`, and `force(0)`, which is 0
in the field and a NaN in C, is not within `1e-6` of the force cap. -/
theorem calc_lj_cap_entry_sig_zero_counterexample :
    ∃ st1 : CapPass ℚ,
      calc_lj_cap_entry 0 (⟨0, 1 / 100, 1, false, false⟩ : Globals ℚ) 1 0 0
        ⟨fun _ _ => ⟨1, 0, 5 / 2, 0, 7⟩, 0, some 0, 0, []⟩ = some st1 ∧
      (st1.table 0 0).LJ_capradius = 0 ∧
      ¬ |lj_force (0 : ℚ) 1 (st1.table 0 0).LJ_capradius - 1| < 1 / 1000000 := by
  refine ⟨⟨set_capradius (fun _ _ => ⟨1, 0, 5 / 2, 0, 7⟩) 0 0 0, 0, some 0, 0, []⟩,
    ?_, ?_, ?_⟩
  · norm_num [calc_lj_cap_entry, cap_search_loop, cap_search_init, force_trace_out]
  · simp [set_capradius, with_capradius]
  · norm_num [set_capradius, with_capradius, lj_force, SQR]

/-- C7: with a force cap that is not positive (0 in particular) the run ends whatever the
fuel, also without any: no search iteration is run (`cnt`, `rad` and `force` keep their
initial values), the cap radius of every entry `(i,j)` with `i, j < n_particle_types`,
self-pairs included, is set to 0, and nothing else in the table is changed. -/
theorem calc_lj_cap_radii_nonpositive_cap {K : Type} [LinearOrderedField K] (fuel : Nat)
    (g : Globals K) (force_cap : K) (t : IA_table K) (hcap : force_cap ≤ 0) :
    ∃ st, calc_lj_cap_radii fuel g force_cap t = some st ∧
      calc_lj_cap_radii 0 g force_cap t = some st ∧
      (∀ i j, i < g.n_particle_types → j < g.n_particle_types →
        (st.table i j).LJ_capradius = 0 ∧ st.table i j = with_capradius (t i j) 0) ∧
      (∀ i j, ¬ (i < g.n_particle_types ∧ j < g.n_particle_types) →
        st.table i j = t i j) ∧
      st.cnt = 0 ∧ st.rad = 0 ∧ st.force = some 0 := by
  have hc : ¬ force_cap > 0 := not_lt.mpr hcap
  have hr : ∀ (n : Nat) (p : IA_parameters K), cap_radius_of n force_cap p = some 0 := by
    intro n p
    simp only [cap_radius_of, hc, ↓reduceIte]
  obtain ⟨st, hst⟩ := calc_lj_cap_radii_some fuel g force_cap t
    (fun a b _ _ => ⟨0, hr fuel (t a b)⟩)
  have hU := calc_lj_cap_radii_Updated fuel g force_cap t st hst
  have hfuel : ∀ n : Nat,
      calc_lj_cap_entry n g force_cap = calc_lj_cap_entry fuel g force_cap := by
    intro n
    funext i j s
    simp only [calc_lj_cap_entry, hc, ↓reduceIte]
  have h0 : calc_lj_cap_radii 0 g force_cap t = some st := by
    rw [← hst]
    simp only [calc_lj_cap_radii, calc_lj_cap_row, hfuel 0]
  obtain ⟨l1, l2, l3⟩ := calc_lj_cap_rows_locals fuel g force_cap hcap _ _ st hst
  refine ⟨st, hst, h0, ?_, ?_, l3, l1, l2⟩
  · intro i j hi hj
    obtain ⟨r, hr1, e⟩ := (hU i j).1 ⟨hi, hj⟩
    rw [hr fuel (t i j)] at hr1
    rw [e, ← Option.some.inj hr1]
    exact ⟨rfl, rfl⟩
  · intro i j hij
    exact (hU i j).2 hij

/-- Witness of C7: two particle types, force cap 0, previous cap radii 7. -/
theorem calc_lj_cap_radii_nonpositive_cap_witness :
    (0 : ℚ) ≤ 0 ∧
    ∃ st, calc_lj_cap_radii 5 (⟨0, 1 / 100, 2, false, false⟩ : Globals ℚ) 0
        (fun _ _ => ⟨1, 1, 5 / 2, 0, 7⟩) = some st ∧
      (st.table 0 0).LJ_capradius = 0 ∧ (st.table 0 1).LJ_capradius = 0 ∧
      (st.table 1 0).LJ_capradius = 0 ∧ (st.table 1 1).LJ_capradius = 0 ∧
      (st.table 2 0).LJ_capradius = 7 := by
  obtain ⟨st, h, _, h1, h2, _⟩ := calc_lj_cap_radii_nonpositive_cap 5
    (⟨0, 1 / 100, 2, false, false⟩ : Globals ℚ) 0 (fun _ _ => ⟨1, 1, 5 / 2, 0, 7⟩)
    (le_refl 0)
  refine ⟨le_refl 0, st, h, (h1 0 0 (by decide) (by decide)).1,
    (h1 0 1 (by decide) (by decide)).1, (h1 1 0 (by decide) (by decide)).1,
    (h1 1 1 (by decide) (by decide)).1, ?_⟩
  rw [h2 2 0 (by decide)]

/-- C8: idempotence of the solver.  If a run of `calc_lj_cap_radii` ends with table `t1`,
then a second run with the same force cap on `t1` ends as well and leaves `t1` as it is,
with whatever fuel the second run ends; the radius written on an entry is the radius
`cap_radius_of` derived from `sig`, `eps` and the force cap of that entry, so a run on any
table with the same `sig` and `eps` (other cap radii, cutoffs and offsets) ends and writes
the same radii. -/
theorem calc_lj_cap_radii_idempotent {K : Type} [LinearOrderedField K] (fuel : Nat)
    (g : Globals K) (force_cap : K) (t : IA_table K) (st1 : CapPass K)
    (h : calc_lj_cap_radii fuel g force_cap t = some st1) :
    (∃ st2, calc_lj_cap_radii fuel g force_cap st1.table = some st2 ∧
      st2.table = st1.table) ∧
    (∀ fuel2 st2, calc_lj_cap_radii fuel2 g force_cap st1.table = some st2 →
      st2.table = st1.table) ∧
    (∀ u : IA_table K,
      (∀ i j, (u i j).LJ_sig = (t i j).LJ_sig ∧ (u i j).LJ_eps = (t i j).LJ_eps) →
      ∃ su, calc_lj_cap_radii fuel g force_cap u = some su ∧
        ∀ i j, i < g.n_particle_types → j < g.n_particle_types →
          (su.table i j).LJ_capradius = (st1.table i j).LJ_capradius) := by
  have hU := calc_lj_cap_radii_Updated fuel g force_cap t st1 h
  have second : ∀ fuel2 st2, calc_lj_cap_radii fuel2 g force_cap st1.table = some st2 →
      st2.table = st1.table := by
    intro fuel2 st2 h2
    have hU2 := calc_lj_cap_radii_Updated fuel2 g force_cap st1.table st2 h2
    funext a b
    by_cases hS : a < g.n_particle_types ∧ b < g.n_particle_types
    · obtain ⟨r1, hr1, e1⟩ := (hU a b).1 hS
      obtain ⟨r2, hr2, e2⟩ := (hU2 a b).1 hS
      rw [Updated_cap_radius_of fuel force_cap _ t st1.table hU fuel2 a b] at hr2
      have hr : r1 = r2 := cap_radius_of_fuel_irrel fuel fuel2 force_cap (t a b) r1 r2 hr1 hr2
      rw [e2, e1, hr]
      rfl
    · exact (hU2 a b).2 hS
  have other : ∀ u : IA_table K,
      (∀ i j, (u i j).LJ_sig = (t i j).LJ_sig ∧ (u i j).LJ_eps = (t i j).LJ_eps) →
      ∃ su, calc_lj_cap_radii fuel g force_cap u = some su ∧
        ∀ i j, i < g.n_particle_types → j < g.n_particle_types →
          (su.table i j).LJ_capradius = (st1.table i j).LJ_capradius := by
    intro u hu
    have hsame : ∀ a b, cap_radius_of fuel force_cap (u a b) =
        cap_radius_of fuel force_cap (t a b) :=
      fun a b => cap_radius_of_congr fuel force_cap _ _ (hu a b).1 (hu a b).2
    obtain ⟨su, hsu⟩ := calc_lj_cap_radii_some fuel g force_cap u (by
      intro a b ha hb
      obtain ⟨r, hr, _⟩ := (hU a b).1 ⟨ha, hb⟩
      exact ⟨r, by rw [hsame a b]; exact hr⟩)
    refine ⟨su, hsu, ?_⟩
    intro i j hi hj
    have hUu := calc_lj_cap_radii_Updated fuel g force_cap u su hsu
    obtain ⟨r1, hr1, e1⟩ := (hU i j).1 ⟨hi, hj⟩
    obtain ⟨r2, hr2, e2⟩ := (hUu i j).1 ⟨hi, hj⟩
    rw [hsame i j, hr1] at hr2
    rw [e1, e2, Option.some.inj hr2]
    rfl
  refine ⟨?_, second, other⟩
  obtain ⟨st2, h2⟩ := calc_lj_cap_radii_some fuel g force_cap st1.table (by
    intro a b ha hb
    obtain ⟨r, hr, _⟩ := (hU a b).1 ⟨ha, hb⟩
    exact ⟨r, by rw [Updated_cap_radius_of fuel force_cap _ t st1.table hU fuel a b]; exact hr⟩)
  exact ⟨st2, h2, second fuel st2 h2⟩

/-- Witness of C8: one particle type with `sig = eps = 1` and force cap 24. -/
theorem calc_lj_cap_radii_idempotent_witness :
    calc_lj_cap_radii 1 (⟨0, 1 / 100, 1, false, false⟩ : Globals ℚ) 24
        (fun _ _ => ⟨1, 1, 5 / 2, 0, 7⟩) =
      some ⟨set_capradius (fun _ _ => ⟨1, 1, 5 / 2, 0, 7⟩) 0 0 1, 1, some 24, 1, []⟩ ∧
    ∃ st2, calc_lj_cap_radii 1 (⟨0, 1 / 100, 1, false, false⟩ : Globals ℚ) 24
        (set_capradius (fun _ _ => ⟨1, 1, 5 / 2, 0, 7⟩) 0 0 1) = some st2 ∧
      st2.table = set_capradius (fun _ _ => ⟨1, 1, 5 / 2, 0, 7⟩) 0 0 1 := by
  have e : calc_lj_cap_radii 1 (⟨0, 1 / 100, 1, false, false⟩ : Globals ℚ) 24
        (fun _ _ => ⟨1, 1, 5 / 2, 0, 7⟩) =
      some ⟨set_capradius (fun _ _ => ⟨1, 1, 5 / 2, 0, 7⟩) 0 0 1, 1, some 24, 1, []⟩ := by
    norm_num [calc_lj_cap_radii, calc_lj_cap_row, calc_lj_cap_entry, cap_search_loop,
      cap_search_body, cap_search_init, lj_cap_force, lj_force, SQR, force_trace_out,
      List.range_succ]
  exact ⟨e, (calc_lj_cap_radii_idempotent 1 _ 24 _ _ e).1⟩

/-- C9: monotonicity of the uncapped force.  For `sig > 0`, `eps > 0` and radii
`0 < r1 < r2` with `r2^6 ≤ 2 sig^6` (at or below the potential minimum) the force law
`lj_force`, that is `48 eps frac6 (frac6 - 1/2) frac2 r` with `frac2 = (sig/r)^2` and
`frac6 = frac2^3`, satisfies `force(r1) > force(r2)`; it is the value computed by the
search loop, and `fac * dist` of the normal branch of the pair force. -/
theorem lj_force_strictly_decreasing {K : Type} [LinearOrderedField K] (sig eps r1 r2 : K)
    (hsig : 0 < sig) (heps : 0 < eps) (h1 : 0 < r1) (h12 : r1 < r2)
    (h2 : r2 ^ 6 ≤ 2 * sig ^ 6) :
    lj_force sig eps r1 > lj_force sig eps r2 ∧
    (∀ r : K, lj_force sig eps r =
      48 * eps * ((sig / r) ^ 2) ^ 3 * (((sig / r) ^ 2) ^ 3 - 1 / 2) * (sig / r) ^ 2 * r) ∧
    (∀ r : K, r ≠ 0 → lj_cap_force sig eps r = some (lj_force sig eps r)) ∧
    (∀ (ia_params : IA_parameters K) (dist : K), dist ≠ 0 →
      uncapped_fac ia_params dist * dist =
        lj_force ia_params.LJ_sig ia_params.LJ_eps (dist - ia_params.LJ_offset)) := by
  refine ⟨lj_force_lt_of_lt sig eps r1 r2 hsig heps h1 h12 h2, ?_, ?_, ?_⟩
  · intro r
    simp only [lj_force, SQR]
    ring
  · intro r hr
    simp only [lj_cap_force, hr, ↓reduceIte]
  · intro ia_params dist hd
    exact uncapped_fac_mul_dist ia_params dist hd

/-- Witness of C9: `sig = eps = 1`, `r1 = 1/2`, `r2 = 1`. -/
theorem lj_force_strictly_decreasing_witness :
    (0 : ℚ) < 1 / 2 ∧ (1 / 2 : ℚ) < 1 ∧ (1 : ℚ) ^ 6 ≤ 2 * 1 ^ 6 ∧
    lj_force (1 : ℚ) 1 (1 / 2) > lj_force (1 : ℚ) 1 1 :=
  ⟨by norm_num, by norm_num, by norm_num,
    (lj_force_strictly_decreasing (1 : ℚ) 1 (1 / 2) 1 (by norm_num) (by norm_num)
      (by norm_num) (by norm_num) (by norm_num)).1⟩

/-- C10: zero force at the potential minimum.  For `sig > 0` and an input of the normal
branch with `r_off^6 = 2 sig^6` the factor `fac` is exactly 0 and the forces of both
particles stay as they are; and for `sig = eps = 1`, no offset, cutoff 2.5, cap radius 0
and `dist = 1.122462` the forces move by `fac * d` with `|fac| < 1e-5`. -/
theorem add_lj_pair_force_zero_at_minimum {K : Type} [LinearOrderedField K]
    (g : Globals K) (p1 p2 : Particle K) (ia_params : IA_parameters K) (d : Fin 3 → K)
    (dist : K) (hsig : 0 < ia_params.LJ_sig)
    (hcut : dist < ia_params.LJ_cut + ia_params.LJ_offset)
    (hreg : ia_params.LJ_capradius < dist - ia_params.LJ_offset)
    (hmin : (dist - ia_params.LJ_offset) ^ 6 = 2 * ia_params.LJ_sig ^ 6) :
    48 * ia_params.LJ_eps * ((ia_params.LJ_sig / (dist - ia_params.LJ_offset)) ^ 2) ^ 3 *
        (((ia_params.LJ_sig / (dist - ia_params.LJ_offset)) ^ 2) ^ 3 - 1 / 2) *
        (ia_params.LJ_sig / (dist - ia_params.LJ_offset)) ^ 2 *
        ((dist - ia_params.LJ_offset) / dist) = 0 ∧
    uncapped_fac ia_params dist = 0 ∧
    (∀ k, (add_lj_pair_force g p1 p2 ia_params d dist).p1.f k = p1.f k ∧
      (add_lj_pair_force g p1 p2 ia_params d dist).p2.f k = p2.f k) ∧
    (∀ (g0 : Globals ℚ) (q1 q2 : Particle ℚ) (d0 : Fin 3 → ℚ),
      ∃ fac : ℚ, |fac| < 1 / 100000 ∧
        ∀ k, (add_lj_pair_force g0 q1 q2 ⟨1, 1, 5 / 2, 0, 0⟩ d0 (1122462 / 1000000)).p1.f k =
            q1.f k + fac * d0 k ∧
          (add_lj_pair_force g0 q1 q2 ⟨1, 1, 5 / 2, 0, 0⟩ d0 (1122462 / 1000000)).p2.f k =
            q2.f k - fac * d0 k) := by
  have h6 : (0 : K) < ia_params.LJ_sig ^ 6 := by positivity
  have hr6 : (dist - ia_params.LJ_offset) ^ 6 ≠ 0 := by rw [hmin]; positivity
  have hfrac : ((ia_params.LJ_sig / (dist - ia_params.LJ_offset)) ^ 2) ^ 3 = 1 / 2 := by
    rw [← pow_mul, div_pow, hmin]
    field_simp
    ring
  have hfac : uncapped_fac ia_params dist = 0 := by
    have e : SQR (ia_params.LJ_sig / (dist - ia_params.LJ_offset)) *
        SQR (ia_params.LJ_sig / (dist - ia_params.LJ_offset)) *
        SQR (ia_params.LJ_sig / (dist - ia_params.LJ_offset)) = 1 / 2 := by
      rw [← hfrac]
      simp only [SQR]
      ring
    simp only [uncapped_fac, e]
    ring
  refine ⟨?_, hfac, ?_, ?_⟩
  · rw [hfrac]
    ring
  · intro k
    have h := pair_force_normal_branch g p1 p2 ia_params d dist hcut hreg k
    rw [hfac] at h
    simpa using h
  · intro g0 q1 q2 d0
    refine ⟨uncapped_fac (⟨1, 1, 5 / 2, 0, 0⟩ : IA_parameters ℚ) (1122462 / 1000000), ?_, ?_⟩
    · norm_num [uncapped_fac, SQR, abs_lt]
    · intro k
      exact pair_force_normal_branch g0 q1 q2 ⟨1, 1, 5 / 2, 0, 0⟩ d0 (1122462 / 1000000)
        (by norm_num) (by norm_num) k

/-- Witness of C10 over the reals: `sig = eps = 1`, cutoff 5/2, no offset, no capping and
`dist` the sixth root of 2. -/
theorem add_lj_pair_force_zero_at_minimum_witness :
    ((2 : ℝ) ^ ((1 : ℝ) / 6) - (⟨1, 1, 5 / 2, 0, 0⟩ : IA_parameters ℝ).LJ_offset) ^ 6 =
      2 * (⟨1, 1, 5 / 2, 0, 0⟩ : IA_parameters ℝ).LJ_sig ^ 6 ∧
    (2 : ℝ) ^ ((1 : ℝ) / 6) < (⟨1, 1, 5 / 2, 0, 0⟩ : IA_parameters ℝ).LJ_cut +
      (⟨1, 1, 5 / 2, 0, 0⟩ : IA_parameters ℝ).LJ_offset ∧
    ∀ k, (add_lj_pair_force (⟨0, 1 / 100, 1, false, false⟩ : Globals ℝ)
        ⟨⟨1⟩, fun _ => 7⟩ ⟨⟨2⟩, fun _ => -4⟩ ⟨1, 1, 5 / 2, 0, 0⟩
        (fun _ => 1) ((2 : ℝ) ^ ((1 : ℝ) / 6))).p1.f k = 7 := by
  have hpos : (0 : ℝ) < (2 : ℝ) ^ ((1 : ℝ) / 6) := Real.rpow_pos_of_pos (by norm_num) _
  have h6 : ((2 : ℝ) ^ ((1 : ℝ) / 6)) ^ 6 = 2 := by
    rw [← Real.rpow_natCast, ← Real.rpow_mul (by norm_num)]
    norm_num
  have hmin : ((2 : ℝ) ^ ((1 : ℝ) / 6) - (⟨1, 1, 5 / 2, 0, 0⟩ : IA_parameters ℝ).LJ_offset) ^ 6 =
      2 * (⟨1, 1, 5 / 2, 0, 0⟩ : IA_parameters ℝ).LJ_sig ^ 6 := by
    simp only [sub_zero, one_pow, mul_one]
    exact h6
  have hcut : (2 : ℝ) ^ ((1 : ℝ) / 6) < (⟨1, 1, 5 / 2, 0, 0⟩ : IA_parameters ℝ).LJ_cut +
      (⟨1, 1, 5 / 2, 0, 0⟩ : IA_parameters ℝ).LJ_offset := by
    simp only [add_zero]
    by_contra hge
    have hle : (5 / 2 : ℝ) ≤ (2 : ℝ) ^ ((1 : ℝ) / 6) := not_lt.mp hge
    have hp : (5 / 2 : ℝ) ^ 6 ≤ ((2 : ℝ) ^ ((1 : ℝ) / 6)) ^ 6 :=
      pow_le_pow_left₀ (by norm_num) hle 6
    rw [h6] at hp
    norm_num at hp
  refine ⟨hmin, hcut, fun k => ?_⟩
  exact ((add_lj_pair_force_zero_at_minimum (⟨0, 1 / 100, 1, false, false⟩ : Globals ℝ)
    ⟨⟨1⟩, fun _ => 7⟩ ⟨⟨2⟩, fun _ => -4⟩ ⟨1, 1, 5 / 2, 0, 0⟩ (fun _ => 1)
    ((2 : ℝ) ^ ((1 : ℝ) / 6)) (by norm_num) hcut (by simpa using hpos) hmin).2.2.1 k).1

/-! ## Theorems: branches and warnings of the pair force -/

/-- In the fallback branch (`r_off ≤ LJ_capradius`, `dist ≤ 0`) the warning is written and
only component 0 of the forces moves. -/
theorem pair_force_on_top_branch {K : Type} [LinearOrderedField K] (g : Globals K)
    (p1 p2 : Particle K) (ia_params : IA_parameters K) (d : Fin 3 → K) (dist : K)
    (hcut : dist < ia_params.LJ_cut + ia_params.LJ_offset)
    (hcap : dist - ia_params.LJ_offset ≤ ia_params.LJ_capradius) (hd : dist ≤ 0) :
    Msg.on_top g.this_node p1.r.identity p2.r.identity ∈
      (add_lj_pair_force g p1 p2 ia_params d dist).out ∧
    (∀ k, k ≠ 0 → (add_lj_pair_force g p1 p2 ia_params d dist).p1.f k = p1.f k ∧
      (add_lj_pair_force g p1 p2 ia_params d dist).p2.f k = p2.f k) ∧
    (add_lj_pair_force g p1 p2 ia_params d dist).p1.f 0 =
      p1.f 0 + 48 * ia_params.LJ_eps * ((ia_params.LJ_sig / ia_params.LJ_capradius) ^ 2) ^ 3 *
        (((ia_params.LJ_sig / ia_params.LJ_capradius) ^ 2) ^ 3 - 1 / 2) *
        (ia_params.LJ_sig / ia_params.LJ_capradius) ^ 2 * ia_params.LJ_capradius ∧
    (add_lj_pair_force g p1 p2 ia_params d dist).p2.f 0 =
      p2.f 0 - 48 * ia_params.LJ_eps * ((ia_params.LJ_sig / ia_params.LJ_capradius) ^ 2) ^ 3 *
        (((ia_params.LJ_sig / ia_params.LJ_capradius) ^ 2) ^ 3 - 1 / 2) *
        (ia_params.LJ_sig / ia_params.LJ_capradius) ^ 2 * ia_params.LJ_capradius := by
  have h2 : ¬ dist - ia_params.LJ_offset > ia_params.LJ_capradius := not_lt.mpr hcap
  have h3 : ¬ dist > 0 := not_lt.mpr hd
  refine ⟨?_, ?_, ?_, ?_⟩
  · simp only [add_lj_pair_force, hcut, h2, h3, ↓reduceIte, List.mem_cons, true_or]
  · intro k hk
    simp only [add_lj_pair_force, hcut, h2, h3, ↓reduceIte, hk, and_self]
  · simp only [add_lj_pair_force, hcut, h2, h3, ↓reduceIte, SQR]
    ring
  · simp only [add_lj_pair_force, hcut, h2, h3, ↓reduceIte, SQR]
    ring

/-- The trace line is no warning. -/
theorem on_top_not_mem_lj_trace_out {K : Type} [LinearOrderedField K] (g : Globals K)
    (p1 p2 : Particle K) (dist fac : K) (d : Fin 3 → K) (a b c : Int) :
    Msg.on_top a b c ∉ lj_trace_out g p1 p2 dist fac d := by
  unfold lj_trace_out
  split_ifs <;> simp

/-- In the capped branch no coincident-particle warning is written. -/
theorem pair_force_capped_branch_out {K : Type} [LinearOrderedField K] (g : Globals K)
    (p1 p2 : Particle K) (ia_params : IA_parameters K) (d : Fin 3 → K) (dist : K)
    (hpos : 0 < dist) (hcut : dist < ia_params.LJ_cut + ia_params.LJ_offset)
    (hcap : dist - ia_params.LJ_offset ≤ ia_params.LJ_capradius) (a b c : Int) :
    Msg.on_top a b c ∉ (add_lj_pair_force g p1 p2 ia_params d dist).out := by
  have h2 : ¬ dist - ia_params.LJ_offset > ia_params.LJ_capradius := not_lt.mpr hcap
  have h3 : dist > 0 := hpos
  simp only [add_lj_pair_force, hcut, h2, h3, ↓reduceIte]
  exact on_top_not_mem_lj_trace_out g p1 p2 dist _ d a b c

/-- The messages of the normal branch: the large-force warning, if its test holds, and the
trace line. -/
theorem pair_force_normal_branch_out {K : Type} [LinearOrderedField K] (g : Globals K)
    (p1 p2 : Particle K) (ia_params : IA_parameters K) (d : Fin 3 → K) (dist : K)
    (hcut : dist < ia_params.LJ_cut + ia_params.LJ_offset)
    (hreg : ia_params.LJ_capradius < dist - ia_params.LJ_offset) :
    (add_lj_pair_force g p1 p2 ia_params d dist).out =
      (if uncapped_fac ia_params dist * dist * (1 / 2) * g.time_step * g.time_step >
          3 / 1000000 then
        [Msg.lj_warning g.this_node p1.r.identity p2.r.identity
          (uncapped_fac ia_params dist * dist) dist]
      else []) ++ lj_trace_out g p1 p2 dist (uncapped_fac ia_params dist) d := by
  have h2 : dist - ia_params.LJ_offset > ia_params.LJ_capradius := hreg
  simp only [add_lj_pair_force, hcut, h2, ↓reduceIte, uncapped_fac]

/-- C12 (the code at the failing input): `sig = eps = 1`, cutoff 5/2, offset -1, cap
radius 0 and two coincident particles (`dist = 0`, `d = 0`).  The pair is inside the cutoff
(`0 < 5/2 - 1`), but `r_off = 1` is above the cap radius, so the normal branch is taken: no
message is written, the coincident-particle warning in particular is not, and the forces
move by `fac * d[k]` in every component, `fac` being computed with the quotient
`r_off / dist` whose divisor is 0. -/
theorem add_lj_pair_force_coincident_negative_offset :
    (0 : ℚ) < (⟨1, 1, 5 / 2, -1, 0⟩ : IA_parameters ℚ).LJ_cut +
      (⟨1, 1, 5 / 2, -1, 0⟩ : IA_parameters ℚ).LJ_offset ∧
    (add_lj_pair_force (⟨0, 1 / 100, 1, false, false⟩ : Globals ℚ)
      ⟨⟨1⟩, fun _ => 7⟩ ⟨⟨2⟩, fun _ => -4⟩ ⟨1, 1, 5 / 2, -1, 0⟩ (fun _ => 0) 0).out = [] ∧
    Msg.on_top 0 1 2 ∉ (add_lj_pair_force (⟨0, 1 / 100, 1, false, false⟩ : Globals ℚ)
      ⟨⟨1⟩, fun _ => 7⟩ ⟨⟨2⟩, fun _ => -4⟩ ⟨1, 1, 5 / 2, -1, 0⟩ (fun _ => 0) 0).out ∧
    ∀ k, (add_lj_pair_force (⟨0, 1 / 100, 1, false, false⟩ : Globals ℚ)
        ⟨⟨1⟩, fun _ => 7⟩ ⟨⟨2⟩, fun _ => -4⟩ ⟨1, 1, 5 / 2, -1, 0⟩ (fun _ => 0) 0).p1.f k =
      7 + 48 * 1 * ((1 / (0 - -1 : ℚ)) ^ 2) ^ 3 * (((1 / (0 - -1 : ℚ)) ^ 2) ^ 3 - 1 / 2) *
        (1 / (0 - -1 : ℚ)) ^ 2 * ((0 - -1) / 0) * 0 := by
  have hout : (add_lj_pair_force (⟨0, 1 / 100, 1, false, false⟩ : Globals ℚ)
      ⟨⟨1⟩, fun _ => 7⟩ ⟨⟨2⟩, fun _ => -4⟩ ⟨1, 1, 5 / 2, -1, 0⟩ (fun _ => 0) 0).out = [] := by
    rw [pair_force_normal_branch_out _ _ _ _ _ _ (by norm_num) (by norm_num)]
    norm_num [uncapped_fac, SQR, lj_trace_out]
  refine ⟨by norm_num, hout, ?_, ?_⟩
  · rw [hout]
    exact List.not_mem_nil _
  · intro k
    rw [(pair_force_normal_branch _ _ _ _ _ _ (by norm_num) (by norm_num) k).1]
    norm_num [uncapped_fac, SQR]

/-- C13 (as amended): branch selection by `dist`.  For every input inside the cutoff with
`r_off = dist - LJ_offset ≤ LJ_capradius`, the capped branch (force along `d`, no
coincident-particle warning) is used when `dist > 0`, and the degenerate fallback when
`dist ≤ 0`: it writes the coincident-particle warning, leaves components 1 and 2 of both
forces as they are and adds to `p1.f[0]` (subtracts from `p2.f[0]`) the amount
`fac * LJ_capradius` with `fac = 48 eps frac6 (frac6 - 1/2) frac2`,
`frac2 = (sig/LJ_capradius)^2`, `frac6 = frac2^3`. -/
theorem add_lj_pair_force_branch_by_dist {K : Type} [LinearOrderedField K] (g : Globals K)
    (p1 p2 : Particle K) (ia_params : IA_parameters K) (d : Fin 3 → K) (dist : K)
    (hcut : dist < ia_params.LJ_cut + ia_params.LJ_offset)
    (hcap : dist - ia_params.LJ_offset ≤ ia_params.LJ_capradius) :
    (0 < dist →
      (∀ k, (add_lj_pair_force g p1 p2 ia_params d dist).p1.f k =
          p1.f k + capped_fac ia_params dist * d k ∧
        (add_lj_pair_force g p1 p2 ia_params d dist).p2.f k =
          p2.f k - capped_fac ia_params dist * d k) ∧
      (∀ a b c, Msg.on_top a b c ∉ (add_lj_pair_force g p1 p2 ia_params d dist).out)) ∧
    (dist ≤ 0 →
      Msg.on_top g.this_node p1.r.identity p2.r.identity ∈
        (add_lj_pair_force g p1 p2 ia_params d dist).out ∧
      (∀ k, k ≠ 0 → (add_lj_pair_force g p1 p2 ia_params d dist).p1.f k = p1.f k ∧
        (add_lj_pair_force g p1 p2 ia_params d dist).p2.f k = p2.f k) ∧
      (add_lj_pair_force g p1 p2 ia_params d dist).p1.f 0 =
        p1.f 0 +
          48 * ia_params.LJ_eps * ((ia_params.LJ_sig / ia_params.LJ_capradius) ^ 2) ^ 3 *
            (((ia_params.LJ_sig / ia_params.LJ_capradius) ^ 2) ^ 3 - 1 / 2) *
            (ia_params.LJ_sig / ia_params.LJ_capradius) ^ 2 * ia_params.LJ_capradius ∧
      (add_lj_pair_force g p1 p2 ia_params d dist).p2.f 0 =
        p2.f 0 -
          48 * ia_params.LJ_eps * ((ia_params.LJ_sig / ia_params.LJ_capradius) ^ 2) ^ 3 *
            (((ia_params.LJ_sig / ia_params.LJ_capradius) ^ 2) ^ 3 - 1 / 2) *
            (ia_params.LJ_sig / ia_params.LJ_capradius) ^ 2 * ia_params.LJ_capradius) := by
  constructor
  · intro hpos
    exact ⟨fun k => pair_force_capped_branch g p1 p2 ia_params d dist hpos hcut hcap k,
      fun a b c => pair_force_capped_branch_out g p1 p2 ia_params d dist hpos hcut hcap a b c⟩
  · intro hd
    exact pair_force_on_top_branch g p1 p2 ia_params d dist hcut hcap hd

/-- Witness of C13: `sig = eps = 1`, cutoff 5/2, no offset, cap radius 1 and `dist = 0`:
the fallback adds `fac * LJ_capradius = 24` to `p1.f[0]`. -/
theorem add_lj_pair_force_branch_by_dist_witness :
    Msg.on_top 0 1 2 ∈ (add_lj_pair_force (⟨0, 1 / 100, 1, false, false⟩ : Globals ℚ)
      ⟨⟨1⟩, fun _ => 7⟩ ⟨⟨2⟩, fun _ => -4⟩ ⟨1, 1, 5 / 2, 0, 1⟩ (fun _ => 0) 0).out ∧
    (add_lj_pair_force (⟨0, 1 / 100, 1, false, false⟩ : Globals ℚ)
      ⟨⟨1⟩, fun _ => 7⟩ ⟨⟨2⟩, fun _ => -4⟩ ⟨1, 1, 5 / 2, 0, 1⟩ (fun _ => 0) 0).p1.f 0 = 31 ∧
    (add_lj_pair_force (⟨0, 1 / 100, 1, false, false⟩ : Globals ℚ)
      ⟨⟨1⟩, fun _ => 7⟩ ⟨⟨2⟩, fun _ => -4⟩ ⟨1, 1, 5 / 2, 0, 1⟩ (fun _ => 0) 0).p1.f 1 = 7 := by
  obtain ⟨h1, h2, h3, _⟩ := (add_lj_pair_force_branch_by_dist
    (⟨0, 1 / 100, 1, false, false⟩ : Globals ℚ) ⟨⟨1⟩, fun _ => 7⟩ ⟨⟨2⟩, fun _ => -4⟩
    ⟨1, 1, 5 / 2, 0, 1⟩ (fun _ => 0) 0 (by norm_num) (by norm_num)).2 (le_refl 0)
  refine ⟨h1, ?_, (h2 1 (by decide)).1⟩
  rw [h3]
  norm_num

/-- Counterexample to C13 as stated (selection by `r_off`): `sig = eps = 1`, cutoff 5/2,
offset 1, cap radius 1, `dist = 1/2` and `d = (0, 1/2, 0)`.  The pair is inside the cutoff
and `r_off = -1/2 ≤ 0`, but `dist > 0`: the capped branch is taken, no warning is written
and component 1 of `p1.f` moves from 7 to 31. -/
theorem add_lj_pair_force_negative_r_off_counterexample :
    (1 / 2 : ℚ) < (⟨1, 1, 5 / 2, 1, 1⟩ : IA_parameters ℚ).LJ_cut +
      (⟨1, 1, 5 / 2, 1, 1⟩ : IA_parameters ℚ).LJ_offset ∧
    (1 / 2 : ℚ) - (⟨1, 1, 5 / 2, 1, 1⟩ : IA_parameters ℚ).LJ_offset ≤ 0 ∧
    (add_lj_pair_force (⟨0, 1 / 100, 1, false, false⟩ : Globals ℚ)
      ⟨⟨1⟩, fun _ => 7⟩ ⟨⟨2⟩, fun _ => -4⟩ ⟨1, 1, 5 / 2, 1, 1⟩
      (fun k => if k = 1 then 1 / 2 else 0) (1 / 2)).out = [] ∧
    (add_lj_pair_force (⟨0, 1 / 100, 1, false, false⟩ : Globals ℚ)
      ⟨⟨1⟩, fun _ => 7⟩ ⟨⟨2⟩, fun _ => -4⟩ ⟨1, 1, 5 / 2, 1, 1⟩
      (fun k => if k = 1 then 1 / 2 else 0) (1 / 2)).p1.f 1 = 31 ∧
    (add_lj_pair_force (⟨0, 1 / 100, 1, false, false⟩ : Globals ℚ)
      ⟨⟨1⟩, fun _ => 7⟩ ⟨⟨2⟩, fun _ => -4⟩ ⟨1, 1, 5 / 2, 1, 1⟩
      (fun k => if k = 1 then 1 / 2 else 0) (1 / 2)).p1.f 1 ≠ 7 := by
  have hf := (pair_force_capped_branch (⟨0, 1 / 100, 1, false, false⟩ : Globals ℚ)
    ⟨⟨1⟩, fun _ => 7⟩ ⟨⟨2⟩, fun _ => -4⟩ ⟨1, 1, 5 / 2, 1, 1⟩
    (fun k => if k = 1 then 1 / 2 else 0) (1 / 2) (by norm_num) (by norm_num)
    (by norm_num) 1).1
  have h31 : (add_lj_pair_force (⟨0, 1 / 100, 1, false, false⟩ : Globals ℚ)
      ⟨⟨1⟩, fun _ => 7⟩ ⟨⟨2⟩, fun _ => -4⟩ ⟨1, 1, 5 / 2, 1, 1⟩
      (fun k => if k = 1 then 1 / 2 else 0) (1 / 2)).p1.f 1 = 31 := by
    rw [hf]
    norm_num [capped_fac, SQR]
  refine ⟨by norm_num, by norm_num, ?_, h31, ?_⟩
  · norm_num [add_lj_pair_force, lj_trace_out]
  · rw [h31]
    norm_num

/-- The trace line is no large-force warning. -/
theorem lj_warning_not_mem_lj_trace_out {K : Type} [LinearOrderedField K] (g : Globals K)
    (p1 p2 : Particle K) (dist fac : K) (d : Fin 3 → K) (a b c : Int) (x y : K) :
    Msg.lj_warning a b c x y ∉ lj_trace_out g p1 p2 dist fac d := by
  unfold lj_trace_out
  split_ifs <;> simp

/-- C14 (as amended): the large-force warning.  For every input of the normal branch
(`dist < LJ_cut + LJ_offset`, `r_off > LJ_capradius`) a large-force warning is written if
and only if `fac * dist * 0.5 * time_step^2` exceeds the threshold `3e-6` of the source;
the warning written names the node, both particle identities, the force `fac * dist` and
the distance; and the forces accumulated are `p1.f[k] + fac * d[k]` and
`p2.f[k] - fac * d[k]` whether or not the warning is written. -/
theorem add_lj_pair_force_large_force_warning {K : Type} [LinearOrderedField K]
    (g : Globals K) (p1 p2 : Particle K) (ia_params : IA_parameters K) (d : Fin 3 → K)
    (dist : K) (hcut : dist < ia_params.LJ_cut + ia_params.LJ_offset)
    (hreg : ia_params.LJ_capradius < dist - ia_params.LJ_offset) :
    ((∃ a b c x y, Msg.lj_warning a b c x y ∈
        (add_lj_pair_force g p1 p2 ia_params d dist).out) ↔
      uncapped_fac ia_params dist * dist * (1 / 2) * g.time_step * g.time_step >
        3 / 1000000) ∧
    (∀ a b c x y, Msg.lj_warning a b c x y ∈
        (add_lj_pair_force g p1 p2 ia_params d dist).out →
      a = g.this_node ∧ b = p1.r.identity ∧ c = p2.r.identity ∧
        x = uncapped_fac ia_params dist * dist ∧ y = dist) ∧
    (∀ k, (add_lj_pair_force g p1 p2 ia_params d dist).p1.f k =
        p1.f k + uncapped_fac ia_params dist * d k ∧
      (add_lj_pair_force g p1 p2 ia_params d dist).p2.f k =
        p2.f k - uncapped_fac ia_params dist * d k) ∧
    uncapped_fac ia_params dist =
      48 * ia_params.LJ_eps * ((ia_params.LJ_sig / (dist - ia_params.LJ_offset)) ^ 2) ^ 3 *
        (((ia_params.LJ_sig / (dist - ia_params.LJ_offset)) ^ 2) ^ 3 - 1 / 2) *
        (ia_params.LJ_sig / (dist - ia_params.LJ_offset)) ^ 2 *
        ((dist - ia_params.LJ_offset) / dist) := by
  have hout := pair_force_normal_branch_out g p1 p2 ia_params d dist hcut hreg
  refine ⟨?_, ?_, fun k => pair_force_normal_branch g p1 p2 ia_params d dist hcut hreg k, ?_⟩
  · rw [hout]
    constructor
    · rintro ⟨a, b, c, x, y, hm⟩
      rcases List.mem_append.mp hm with h | h
      · by_contra hn
        rw [if_neg hn] at h
        exact absurd h (List.not_mem_nil _)
      · exact absurd h (lj_warning_not_mem_lj_trace_out g p1 p2 dist _ d a b c x y)
    · intro ht
      refine ⟨g.this_node, p1.r.identity, p2.r.identity,
        uncapped_fac ia_params dist * dist, dist, ?_⟩
      rw [if_pos ht]
      exact List.mem_append_left _ (List.mem_singleton_self _)
  · intro a b c x y hm
    rw [hout] at hm
    rcases List.mem_append.mp hm with h | h
    · split_ifs at h
      · rw [List.mem_singleton] at h
        injection h with h1 h2 h3 h4 h5
        exact ⟨h1, h2, h3, h4, h5⟩
      · exact absurd h (List.not_mem_nil _)
    · exact absurd h (lj_warning_not_mem_lj_trace_out g p1 p2 dist _ d a b c x y)
  · simp only [uncapped_fac, SQR]
    ring

/-- Witness of C14: `sig = eps = 1`, cutoff 5/2, no offset, no capping, `dist = 1` and
`time_step = 1/100`: `fac * dist * 0.5 * time_step^2 = 0.0012` and the warning is
written. -/
theorem add_lj_pair_force_large_force_warning_witness :
    ∃ a b c x y, Msg.lj_warning a b c x y ∈
      (add_lj_pair_force (⟨0, 1 / 100, 1, false, false⟩ : Globals ℚ)
        ⟨⟨1⟩, fun _ => 7⟩ ⟨⟨2⟩, fun _ => -4⟩ ⟨1, 1, 5 / 2, 0, 0⟩ (fun _ => 1 / 2) 1).out := by
  apply (add_lj_pair_force_large_force_warning (⟨0, 1 / 100, 1, false, false⟩ : Globals ℚ)
    ⟨⟨1⟩, fun _ => 7⟩ ⟨⟨2⟩, fun _ => -4⟩ ⟨1, 1, 5 / 2, 0, 0⟩ (fun _ => 1 / 2) 1
    (by norm_num) (by norm_num)).1.mpr
  norm_num [uncapped_fac, SQR]

/-- Counterexample to C14 as stated (threshold 1): `sig = eps = 1`, cutoff 5/2, no offset,
no capping, `dist = 1` and `time_step = 1/100`.  The input is one of the normal branch,
`fac = 24` and `0.5 * fac * dist * time_step^2 = 0.0012` does not exceed 1, but the
warning is written, as `0.0012 > 3e-6`. -/
theorem add_lj_pair_force_warning_threshold_counterexample :
    (add_lj_pair_force (⟨0, 1 / 100, 1, false, false⟩ : Globals ℚ)
        ⟨⟨1⟩, fun _ => 7⟩ ⟨⟨2⟩, fun _ => -4⟩ ⟨1, 1, 5 / 2, 0, 0⟩ (fun _ => 1 / 2) 1).out =
      [Msg.lj_warning 0 1 2 24 1] ∧
    (add_lj_pair_force (⟨0, 1 / 100, 1, false, false⟩ : Globals ℚ)
        ⟨⟨1⟩, fun _ => 7⟩ ⟨⟨2⟩, fun _ => -4⟩ ⟨1, 1, 5 / 2, 0, 0⟩ (fun _ => 1 / 2) 1).p1.f 0 =
      7 + 24 * (1 / 2) ∧
    ¬ ((1 / 2 : ℚ) * 24 * 1 * ((1 / 100) * (1 / 100)) > 1) := by
  refine ⟨?_, ?_, by norm_num⟩
  · rw [pair_force_normal_branch_out _ _ _ _ _ _ (by norm_num) (by norm_num)]
    norm_num [uncapped_fac, SQR, lj_trace_out]
  · rw [(pair_force_normal_branch _ _ _ _ _ _ (by norm_num) (by norm_num) 0).1]
    norm_num [uncapped_fac, SQR]

/-- C15: the cap-radius invariant.  For an entry with `sig > 0` and `eps > 0` and every
force cap, the radius written by the body of the inner loop of `calc_lj_cap_radii` is not
negative: it is 0 when `force_cap ≤ 0`, and it is strictly positive whenever the search is
left with `force_cap > 0`. -/
theorem calc_lj_cap_entry_capradius_nonneg {K : Type} [LinearOrderedField K] (fuel : Nat)
    (g : Globals K) (force_cap : K) (i j : Nat) (st st1 : CapPass K)
    (hsig : 0 < (st.table i j).LJ_sig) (heps : 0 < (st.table i j).LJ_eps)
    (h : calc_lj_cap_entry fuel g force_cap i j st = some st1) :
    0 ≤ (st1.table i j).LJ_capradius ∧
    (force_cap ≤ 0 → (st1.table i j).LJ_capradius = 0) ∧
    (0 < force_cap → 0 < (st1.table i j).LJ_capradius) := by
  obtain ⟨r, hr, e⟩ := calc_lj_cap_entry_some fuel g force_cap i j st st1 h
  have hw : (st1.table i j).LJ_capradius = r := by
    rw [e]
    simp [set_capradius, with_capradius]
  rw [hw]
  have hpos : 0 < force_cap → 0 < r := fun hc =>
    cap_radius_of_pos fuel force_cap _ r hc hsig heps hr
  have hzero : force_cap ≤ 0 → r = 0 := by
    intro hc
    have hn : ¬ force_cap > 0 := not_lt.mpr hc
    simp only [cap_radius_of, hn, ↓reduceIte] at hr
    exact (Option.some.inj hr).symm
  refine ⟨?_, hzero, hpos⟩
  rcases le_or_lt force_cap 0 with hc | hc
  · rw [hzero hc]
  · exact le_of_lt (hpos hc)

/-- Witness of C15: `sig = eps = 1` and `force_cap = 24`; the radius written is 1. -/
theorem calc_lj_cap_entry_capradius_nonneg_witness :
    calc_lj_cap_entry 1 (⟨0, 1 / 100, 1, false, false⟩ : Globals ℚ) 24 0 0
        ⟨fun _ _ => ⟨1, 1, 5 / 2, 0, 0⟩, 0, some 0, 0, []⟩ =
      some ⟨set_capradius (fun _ _ => ⟨1, 1, 5 / 2, 0, 0⟩) 0 0 1, 1, some 24, 1, []⟩ ∧
    (0 : ℚ) < (set_capradius (fun _ _ => (⟨1, 1, 5 / 2, 0, 0⟩ : IA_parameters ℚ)) 0 0 1
      0 0).LJ_capradius := by
  have e : calc_lj_cap_entry 1 (⟨0, 1 / 100, 1, false, false⟩ : Globals ℚ) 24 0 0
        ⟨fun _ _ => ⟨1, 1, 5 / 2, 0, 0⟩, 0, some 0, 0, []⟩ =
      some ⟨set_capradius (fun _ _ => ⟨1, 1, 5 / 2, 0, 0⟩) 0 0 1, 1, some 24, 1, []⟩ := by
    norm_num [calc_lj_cap_entry, cap_search_loop, cap_search_body, cap_search_init,
      lj_cap_force, lj_force, SQR, force_trace_out]
  exact ⟨e, (calc_lj_cap_entry_capradius_nonneg 1 _ 24 0 0 _ _ (by norm_num) (by norm_num)
    e).2.2 (by norm_num)⟩

/-! ## Theorems: the concrete run of the solver -/

/-- The run of the search loop for `sig = eps = 1` and `force_cap = 100`: 39 iterations. -/
theorem cap_search_loop_scenario_B_run :
    cap_search_loop (1 : ℚ) 1 100 39 (cap_search_init 1) =
      some ⟨(616957217 / 671088640), 0, some (187635769231870753303309793884862139136443228331948222185183709606805065698424300398895642119590397729319157760000000 / 1876357705713078179747969631321119762063344857319699638218888228144934825117043515095460933968631342607710155045537), 39⟩ := by
  have e0 : cap_search_init (1 : ℚ) = ⟨1, (-(1 / 10)), some 0, 0⟩ := by
    norm_num [cap_search_init]
  rw [e0]
  rw [cap_search_loop_succ _ _ _ _ _ (by norm_num),
    show cap_search_body (1 : ℚ) 1 100 ⟨1, (-(1 / 10)), some 0, 0⟩ =
      ⟨(9 / 10), (-(1 / 10)), some 24, 1⟩ by
      norm_num [cap_search_body, lj_cap_force, lj_force, SQR, abs_lt]]
  rw [cap_search_loop_succ _ _ _ _ _ (by norm_num),
    show cap_search_body (1 : ℚ) 1 100 ⟨(9 / 10), (-(1 / 10)), some 24, 1⟩ =
      ⟨(19 / 20), (1 / 20), some (117484720000000 / 847288609443), 2⟩ by
      norm_num [cap_search_body, lj_cap_force, lj_force, SQR, abs_lt]]
  rw [cap_search_loop_succ _ _ _ _ _ (by norm_num),
    show cap_search_body (1 : ℚ) 1 100 ⟨(19 / 20), (1 / 20), some (117484720000000 / 847288609443), 2⟩ =
      ⟨(37 / 40), (-(1 / 40)), some (2486910535680000000 / 42052983462257059), 3⟩ by
      norm_num [cap_search_body, lj_cap_force, lj_force, SQR, abs_lt]]
  rw [cap_search_loop_succ _ _ _ _ _ (by norm_num),
    show cap_search_body (1 : ℚ) 1 100 ⟨(37 / 40), (-(1 / 40)), some (2486910535680000000 / 42052983462257059), 3⟩ =
      ⟨(9 / 10), (-(1 / 40)), some (22123407963586560000000 / 243569224216081305397), 4⟩ by
      norm_num [cap_search_body, lj_cap_force, lj_force, SQR, abs_lt]]
  rw [cap_search_loop_succ _ _ _ _ _ (by norm_num),
    show cap_search_body (1 : ℚ) 1 100 ⟨(9 / 10), (-(1 / 40)), some (22123407963586560000000 / 243569224216081305397), 4⟩ =
      ⟨(73 / 80), (1 / 80), some (117484720000000 / 847288609443), 5⟩ by
      norm_num [cap_search_body, lj_cap_force, lj_force, SQR, abs_lt]]
  rw [cap_search_loop_succ _ _ _ _ _ (by norm_num),
    show cap_search_body (1 : ℚ) 1 100 ⟨(73 / 80), (1 / 80), some (117484720000000 / 847288609443), 5⟩ =
      ⟨(37 / 40), (1 / 80), some (187713780586937057280000000 / 1671849507393788885941033), 6⟩ by
      norm_num [cap_search_body, lj_cap_force, lj_force, SQR, abs_lt]]
  rw [cap_search_loop_succ _ _ _ _ _ (by norm_num),
    show cap_search_body (1 : ℚ) 1 100 ⟨(37 / 40), (1 / 80), some (187713780586937057280000000 / 1671849507393788885941033), 6⟩ =
      ⟨(147 / 160), (-(1 / 160)), some (22123407963586560000000 / 243569224216081305397), 7⟩ by
      norm_num [cap_search_body, lj_cap_force, lj_force, SQR, abs_lt]]
  rw [cap_search_loop_succ _ _ _ _ _ (by norm_num),
    show cap_search_body (1 : ℚ) 1 100 ⟨(147 / 160), (-(1 / 160)), some (22123407963586560000000 / 243569224216081305397), 7⟩ =
      ⟨(59 / 64), (1 / 320), some (503888432859233470382080000000 / 4988891938119860195948410209), 8⟩ by
      norm_num [cap_search_body, lj_cap_force, lj_force, SQR, abs_lt]]
  rw [cap_search_loop_succ _ _ _ _ _ (by norm_num),
    show cap_search_body (1 : ℚ) 1 100 ⟨(59 / 64), (1 / 320), some (503888432859233470382080000000 / 4988891938119860195948410209), 8⟩ =
      ⟨(589 / 640), (-(1 / 640)), some (10054823063784231247282176 / 104972647676132430295979), 9⟩ by
      norm_num [cap_search_body, lj_cap_force, lj_force, SQR, abs_lt]]
  rw [cap_search_loop_succ _ _ _ _ _ (by norm_num),
    show cap_search_body (1 : ℚ) 1 100 ⟨(589 / 640), (-(1 / 640)), some (10054823063784231247282176 / 104972647676132430295979), 9⟩ =
      ⟨(147 / 160), (-(1 / 640)), some (100999091356116111914649979453440000000 / 1026830670635352458966883555245399869), 10⟩ by
      norm_num [cap_search_body, lj_cap_force, lj_force, SQR, abs_lt]]
  rw [cap_search_loop_succ _ _ _ _ _ (by norm_num),
    show cap_search_body (1 : ℚ) 1 100 ⟨(147 / 160), (-(1 / 640)), some (100999091356116111914649979453440000000 / 1026830670635352458966883555245399869), 10⟩ =
      ⟨(1177 / 1280), (1 / 1280), some (503888432859233470382080000000 / 4988891938119860195948410209), 11⟩ by
      norm_num [cap_search_body, lj_cap_force, lj_force, SQR, abs_lt]]
  rw [cap_search_loop_succ _ _ _ _ _ (by norm_num),
    show cap_search_body (1 : ℚ) 1 100 ⟨(1177 / 1280), (1 / 1280), some (503888432859233470382080000000 / 4988891938119860195948410209), 11⟩ =
      ⟨(2353 / 2560), (-(1 / 2560)), some (829219560830340899820593965883719680000000 / 8319438525298446592898172947058291900217), 12⟩ by
      norm_num [cap_search_body, lj_cap_force, lj_force, SQR, abs_lt]]
  rw [cap_search_loop_succ _ _ _ _ _ (by norm_num),
    show cap_search_body (1 : ℚ) 1 100 ⟨(2353 / 2560), (-(1 / 2560)), some (829219560830340899820593965883719680000000 / 8319438525298446592898172947058291900217), 12⟩ =
      ⟨(4707 / 5120), (1 / 5120), some (6800458910736962301651764380316404285440000000 / 67777423156876617901224227718304829102101873), 13⟩ by
      norm_num [cap_search_body, lj_cap_force, lj_force, SQR, abs_lt]]
  rw [cap_search_loop_succ _ _ _ _ _ (by norm_num),
    show cap_search_body (1 : ℚ) 1 100 ⟨(4707 / 5120), (1 / 5120), some (6800458910736962301651764380316404285440000000 / 67777423156876617901224227718304829102101873), 13⟩ =
      ⟨(1177 / 1280), (1 / 5120), some (18559562454877801328440229138059435326832640000000 / 185589466471176465347497616898917294118627617169), 14⟩ by
      norm_num [cap_search_body, lj_cap_force, lj_force, SQR, abs_lt]]
  rw [cap_search_loop_succ _ _ _ _ _ (by norm_num),
    show cap_search_body (1 : ℚ) 1 100 ⟨(1177 / 1280), (1 / 5120), some (18559562454877801328440229138059435326832640000000 / 185589466471176465347497616898917294118627617169), 14⟩ =
      ⟨(1883 / 2048), (-(1 / 10240)), some (829219560830340899820593965883719680000000 / 8319438525298446592898172947058291900217), 15⟩ by
      norm_num [cap_search_body, lj_cap_force, lj_force, SQR, abs_lt]]
  rw [cap_search_loop_succ _ _ _ _ _ (by norm_num),
    show cap_search_body (1 : ℚ) 1 100 ⟨(1883 / 2048), (-(1 / 10240)), some (829219560830340899820593965883719680000000 / 8319438525298446592898172947058291900217), 15⟩ =
      ⟨(4707 / 5120), (-(1 / 10240)), some (373550345518090801731362268664376451454205952 / 3741572459543916230275758578049204368050763), 16⟩ by
      norm_num [cap_search_body, lj_cap_force, lj_force, SQR, abs_lt]]
  rw [cap_search_loop_succ _ _ _ _ _ (by norm_num),
    show cap_search_body (1 : ℚ) 1 100 ⟨(4707 / 5120), (-(1 / 10240)), some (373550345518090801731362268664376451454205952 / 3741572459543916230275758578049204368050763), 16⟩ =
      ⟨(18829 / 20480), (1 / 20480), some (18559562454877801328440229138059435326832640000000 / 185589466471176465347497616898917294118627617169), 17⟩ by
      norm_num [cap_search_body, lj_cap_force, lj_force, SQR, abs_lt]]
  rw [cap_search_loop_succ _ _ _ _ _ (by norm_num),
    show cap_search_body (1 : ℚ) 1 100 ⟨(18829 / 20480), (1 / 20480), some (18559562454877801328440229138059435326832640000000 / 185589466471176465347497616898917294118627617169), 17⟩ =
      ⟨(37657 / 40960), (-(1 / 40960)), some (3736018524995059880374174590120657981468432264069120000000 / 37389901469481376717530422137622412352932068279921502589), 18⟩ by
      norm_num [cap_search_body, lj_cap_force, lj_force, SQR, abs_lt]]
  rw [cap_search_loop_succ _ _ _ _ _ (by norm_num),
    show cap_search_body (1 : ℚ) 1 100 ⟨(37657 / 40960), (-(1 / 40960)), some (3736018524995059880374174590120657981468432264069120000000 / 37389901469481376717530422137622412352932068279921502589), 18⟩ =
      ⟨(4707 / 5120), (-(1 / 40960)), some (30607573062584350560482447824433945204780711091728547840000000 / 306192351860198590764955693374226793584298347430704267004857), 19⟩ by
      norm_num [cap_search_body, lj_cap_force, lj_force, SQR, abs_lt]]
  rw [cap_search_loop_succ _ _ _ _ _ (by norm_num),
    show cap_search_body (1 : ℚ) 1 100 ⟨(4707 / 5120), (-(1 / 40960)), some (30607573062584350560482447824433945204780711091728547840000000 / 306192351860198590764955693374226793584298347430704267004857), 19⟩ =
      ⟨(75313 / 81920), (1 / 81920), some (18559562454877801328440229138059435326832640000000 / 185589466471176465347497616898917294118627617169), 20⟩ by
      norm_num [cap_search_body, lj_cap_force, lj_force, SQR, abs_lt]]
  rw [cap_search_loop_succ _ _ _ _ _ (by norm_num),
    show cap_search_body (1 : ℚ) 1 100 ⟨(75313 / 81920), (1 / 81920), some (18559562454877801328440229138059435326832640000000 / 185589466471176465347497616898917294118627617169), 20⟩ =
      ⟨(30125 / 32768), (-(1 / 163840)), some (250745877385021763344384921999902450973475128637573635768320000000 / 2507894816796909009417230829921256101888885840561624677240983153), 21⟩ by
      norm_num [cap_search_body, lj_cap_force, lj_force, SQR, abs_lt]]
  rw [cap_search_loop_succ _ _ _ _ _ (by norm_num),
    show cap_search_body (1 : ℚ) 1 100 ⟨(30125 / 32768), (-(1 / 163840)), some (250745877385021763344384921999902450973475128637573635768320000000 / 2507894816796909009417230829921256101888885840561624677240983153), 21⟩ =
      ⟨(4707 / 5120), (-(1 / 163840)), some (1682756084147640023221222062962606156994952490674189252952064 / 16828744721436505814708146062768719275481998920440673828125), 22⟩ by
      norm_num [cap_search_body, lj_cap_force, lj_force, SQR, abs_lt]]
  rw [cap_search_loop_succ _ _ _ _ _ (by norm_num),
    show cap_search_body (1 : ℚ) 1 100 ⟨(4707 / 5120), (-(1 / 163840)), some (1682756084147640023221222062962606156994952490674189252952064 / 16828744721436505814708146062768719275481998920440673828125), 22⟩ =
      ⟨(301249 / 327680), (1 / 327680), some (18559562454877801328440229138059435326832640000000 / 185589466471176465347497616898917294118627617169), 23⟩ by
      norm_num [cap_search_body, lj_cap_force, lj_force, SQR, abs_lt]]
  rw [cap_search_loop_succ _ _ _ _ _ (by norm_num),
    show cap_search_body (1 : ℚ) 1 100 ⟨(301249 / 327680), (1 / 327680), some (18559562454877801328440229138059435326832640000000 / 185589466471176465347497616898917294118627617169), 23⟩ =
      ⟨(602497 / 655360), (-(1 / 655360)), some (16827705766610409236529754361550097599954224424489733228507504312320000000 / 168280185162112325402736118218128293430963125355086468457677991694541249), 24⟩ by
      norm_num [cap_search_body, lj_cap_force, lj_force, SQR, abs_lt]]
  rw [cap_search_loop_succ _ _ _ _ _ (by norm_num),
    show cap_search_body (1 : ℚ) 1 100 ⟨(602497 / 655360), (-(1 / 655360)), some (16827705766610409236529754361550097599954224424489733228507504312320000000 / 168280185162112325402736118218128293430963125355086468457677991694541249), 24⟩ =
      ⟨(240999 / 262144), (1 / 1310720), some (137853159246032016001121823090122207252591603294979093448512897904803840000000 / 1378521532370645873201004089042998718421378665294450833093156065051597538177), 25⟩ by
      norm_num [cap_search_body, lj_cap_force, lj_force, SQR, abs_lt]]
  rw [cap_search_loop_succ _ _ _ _ _ (by norm_num),
    show cap_search_body (1 : ℚ) 1 100 ⟨(240999 / 262144), (1 / 1310720), some (137853159246032016001121823090122207252591603294979093448512897904803840000000 / 1378521532370645873201004089042998718421378665294450833093156065051597538177), 25⟩ =
      ⟨(2409989 / 2621440), (-(1 / 2621440)), some (308371633258094161865296296802554099938546735948171186808716116237484032 / 3083733736366907595517480373118752718476999944453134286390491895044333), 26⟩ by
      norm_num [cap_search_body, lj_cap_force, lj_force, SQR, abs_lt]]
  rw [cap_search_loop_succ _ _ _ _ _ (by norm_num),
    show cap_search_body (1 : ℚ) 1 100 ⟨(2409989 / 2621440), (-(1 / 2621440)), some (308371633258094161865296296802554099938546735948171186808716116237484032 / 3083733736366907595517480373118752718476999944453134286390491895044333), 26⟩ =
      ⟨(4819979 / 5242880), (1 / 5242880), some (9251158956787895974766460613305429868324200555509741433742344244791883113431040000000 / 92511513062727853047047469170117593141730148184212466358385621470417624090156786069), 27⟩ by
      norm_num [cap_search_body, lj_cap_force, lj_force, SQR, abs_lt]]
  rw [cap_search_loop_succ _ _ _ _ _ (by norm_num),
    show cap_search_body (1 : ℚ) 1 100 ⟨(4819979 / 5242880), (1 / 5242880), some (9251158956787895974766460613305429868324200555509741433742344244791883113431040000000 / 92511513062727853047047469170117593141730148184212466358385621470417624090156786069), 27⟩ =
      ⟨(9639957 / 10485760), (-(1 / 10485760)), some (75785453381778990420129059296570018160363086850758694150984342478905182146338488320000000 / 757856359027154457304403727454161402769124882896635441521806687170547905616597985940539), 28⟩ by
      norm_num [cap_search_body, lj_cap_force, lj_force, SQR, abs_lt]]
  rw [cap_search_loop_succ _ _ _ _ _ (by norm_num),
    show cap_search_body (1 : ℚ) 1 100 ⟨(9639957 / 10485760), (-(1 / 10485760)), some (75785453381778990420129059296570018160363086850758694150984342478905182146338488320000000 / 757856359027154457304403727454161402769124882896635441521806687170547905616597985940539), 28⟩ =
      ⟨(2409989 / 2621440), (-(1 / 10485760)), some (206944867062846823341759548631934570152250754714376848376026660519472383039186749358080000000 / 2069450306950142380524581078404037993888430280414721370983618256104156283812662823560844919), 29⟩ by
      norm_num [cap_search_body, lj_cap_force, lj_force, SQR, abs_lt]]
  rw [cap_search_loop_succ _ _ _ _ _ (by norm_num),
    show cap_search_body (1 : ℚ) 1 100 ⟨(2409989 / 2621440), (-(1 / 10485760)), some (206944867062846823341759548631934570152250754714376848376026660519472383039186749358080000000 / 2069450306950142380524581078404037993888430280414721370983618256104156283812662823560844919), 29⟩ =
      ⟨(19279913 / 20971520), (1 / 20971520), some (9251158956787895974766460613305429868324200555509741433742344244791883113431040000000 / 92511513062727853047047469170117593141730148184212466358385621470417624090156786069), 30⟩ by
      norm_num [cap_search_body, lj_cap_force, lj_force, SQR, abs_lt]]
  rw [cap_search_loop_succ _ _ _ _ _ (by norm_num),
    show cap_search_body (1 : ℚ) 1 100 ⟨(19279913 / 20971520), (1 / 20971520), some (9251158956787895974766460613305429868324200555509741433742344244791883113431040000000 / 92511513062727853047047469170117593141730148184212466358385621470417624090156786069), 30⟩ =
      ⟨(9639957 / 10485760), (1 / 20971520), some (5085877737316445894719738099204589955479900787636410742751995476886203431579067463782891520000000 / 50858776450697824684636005082996449138706978477999478072386858291185541088135584197520704066953), 31⟩ by
      norm_num [cap_search_body, lj_cap_force, lj_force, SQR, abs_lt]]
  rw [cap_search_loop_succ _ _ _ _ _ (by norm_num),
    show cap_search_body (1 : ℚ) 1 100 ⟨(9639957 / 10485760), (1 / 20971520), some (5085877737316445894719738099204589955479900787636410742751995476886203431579067463782891520000000 / 50858776450697824684636005082996449138706978477999478072386858291185541088135584197520704066953), 31⟩ =
      ⟨(38559827 / 41943040), (-(1 / 41943040)), some (206944867062846823341759548631934570152250754714376848376026660519472383039186749358080000000 / 2069450306950142380524581078404037993888430280414721370983618256104156283812662823560844919), 32⟩ by
      norm_num [cap_search_body, lj_cap_force, lj_force, SQR, abs_lt]]
  rw [cap_search_loop_succ _ _ _ _ _ (by norm_num),
    show cap_search_body (1 : ℚ) 1 100 ⟨(38559827 / 41943040), (-(1 / 41943040)), some (206944867062846823341759548631934570152250754714376848376026660519472383039186749358080000000 / 2069450306950142380524581078404037993888430280414721370983618256104156283812662823560844919), 32⟩ =
      ⟨(19279913 / 20971520), (-(1 / 41943040)), some (41663507620876344510344471902779706617601693452869663482123304518973706799900974285449865461760000000 / 416635237147849473109726222003787631103971696958173992950035606885376887976545593784693817059901667), 33⟩ by
      norm_num [cap_search_body, lj_cap_force, lj_force, SQR, abs_lt]]
  rw [cap_search_loop_succ _ _ _ _ _ (by norm_num),
    show cap_search_body (1 : ℚ) 1 100 ⟨(19279913 / 20971520), (-(1 / 41943040)), some (41663507620876344510344471902779706617601693452869663482123304518973706799900974285449865461760000000 / 416635237147849473109726222003787631103971696958173992950035606885376887976545593784693817059901667), 33⟩ =
      ⟨(77119653 / 83886080), (1 / 83886080), some (5085877737316445894719738099204589955479900787636410742751995476886203431579067463782891520000000 / 50858776450697824684636005082996449138706978477999478072386858291185541088135584197520704066953), 34⟩ by
      norm_num [cap_search_body, lj_cap_force, lj_force, SQR, abs_lt]]
  rw [cap_search_loop_succ _ _ _ _ _ (by norm_num),
    show cap_search_body (1 : ℚ) 1 100 ⟨(77119653 / 83886080), (1 / 83886080), some (5085877737316445894719738099204589955479900787636410742751995476886203431579067463782891520000000 / 50858776450697824684636005082996449138706978477999478072386858291185541088135584197520704066953), 34⟩ =
      ⟨(30847861 / 33554432), (-(1 / 167772160)), some (113769155304069475194626648899391420006310058096601164006217725239375425770586683173490409194127360000000 / 1137691762458562730232635984190778745568020267047689853499258570859182700929002188742648068564820527591), 35⟩ by
      norm_num [cap_search_body, lj_cap_force, lj_force, SQR, abs_lt]]
  rw [cap_search_loop_succ _ _ _ _ _ (by norm_num),
    show cap_search_body (1 : ℚ) 1 100 ⟨(30847861 / 33554432), (-(1 / 167772160)), some (113769155304069475194626648899391420006310058096601164006217725239375425770586683173490409194127360000000 / 1137691762458562730232635984190778745568020267047689853499258570859182700929002188742648068564820527591), 35⟩ =
      ⟨(19279913 / 20971520), (-(1 / 167772160)), some (2290475669735864536608189764646299424312273659755460622494970541020895071216545206393800253174185984 / 22904758597706827705446728953968505434289217733516321776421596210826979597014457689079504517446981), 36⟩ by
      norm_num [cap_search_body, lj_cap_force, lj_force, SQR, abs_lt]]
  rw [cap_search_loop_succ _ _ _ _ _ (by norm_num),
    show cap_search_body (1 : ℚ) 1 100 ⟨(19279913 / 20971520), (-(1 / 167772160)), some (2290475669735864536608189764646299424312273659755460622494970541020895071216545206393800253174185984 / 22904758597706827705446728953968505434289217733516321776421596210826979597014457689079504517446981), 36⟩ =
      ⟨(308478609 / 335544320), (1 / 335544320), some (5085877737316445894719738099204589955479900787636410742751995476886203431579067463782891520000000 / 50858776450697824684636005082996449138706978477999478072386858291185541088135584197520704066953), 37⟩ by
      norm_num [cap_search_body, lj_cap_force, lj_force, SQR, abs_lt]]
  rw [cap_search_loop_succ _ _ _ _ _ (by norm_num),
    show cap_search_body (1 : ℚ) 1 100 ⟨(308478609 / 335544320), (1 / 335544320), some (5085877737316445894719738099204589955479900787636410742751995476886203431579067463782891520000000 / 50858776450697824684636005082996449138706978477999478072386858291185541088135584197520704066953), 37⟩ =
      ⟨(616957217 / 671088640), (-(1 / 671088640)), some (7634918963331482593170806963707345983899962357338187385397530110513082275056220017520147363652680244264960000000 / 76349192108158330323702202705145920456060087496803118611676414712857932535434337372768253432874341256073078043), 38⟩ by
      norm_num [cap_search_body, lj_cap_force, lj_force, SQR, abs_lt]]
  rw [cap_search_loop_succ _ _ _ _ _ (by norm_num),
    show cap_search_body (1 : ℚ) 1 100 ⟨(616957217 / 671088640), (-(1 / 671088640)), some (7634918963331482593170806963707345983899962357338187385397530110513082275056220017520147363652680244264960000000 / 76349192108158330323702202705145920456060087496803118611676414712857932535434337372768253432874341256073078043), 38⟩ =
      ⟨(616957217 / 671088640), 0, some (187635769231870753303309793884862139136443228331948222185183709606805065698424300398895642119590397729319157760000000 / 1876357705713078179747969631321119762063344857319699638218888228144934825117043515095460933968631342607710155045537), 39⟩ by
      norm_num [cap_search_body, lj_cap_force, lj_force, SQR, abs_lt]]
  rw [cap_search_loop_done _ _ _ _ _ rfl]

/-- With a positive force cap the body of the inner loop leaves the locals as the search
loop left them. -/
theorem calc_lj_cap_entry_locals_of_search {K : Type} [LinearOrderedField K] (fuel : Nat)
    (g : Globals K) (force_cap : K) (i j : Nat) (st st1 : CapPass K) (s : CapSearch K)
    (hcap : 0 < force_cap)
    (hs : cap_search_loop (st.table i j).LJ_sig (st.table i j).LJ_eps force_cap fuel
      (cap_search_init (st.table i j).LJ_sig) = some s)
    (h : calc_lj_cap_entry fuel g force_cap i j st = some st1) :
    st1.rad = s.rad ∧ st1.force = s.force ∧ st1.cnt = s.cnt ∧
      (st1.table i j).LJ_capradius = s.rad := by
  have hc : force_cap > 0 := hcap
  unfold calc_lj_cap_entry at h
  simp only [hc, ↓reduceIte, hs] at h
  rw [← Option.some.inj h]
  simp [set_capradius, with_capradius]

/-- The radius derived for an entry with `sig = eps = 1` and `force_cap = 100`. -/
theorem cap_radius_of_scenario_B (cut off c0 : ℚ) :
    cap_radius_of 39 100 (⟨1, 1, cut, off, c0⟩ : IA_parameters ℚ) =
      some (616957217 / 671088640) := by
  have hc : (100 : ℚ) > 0 := by norm_num
  unfold cap_radius_of
  rw [if_pos hc]
  show (cap_search_loop (1 : ℚ) 1 100 39 (cap_search_init 1)).map CapSearch.rad = _
  rw [cap_search_loop_scenario_B_run]
  rfl

/-- C11: concrete scenario B.  For an entry with `sig = eps = 1` (any cutoff, offset and
previous cap radius) and `force_cap = 100` the search loop, run in exact arithmetic, is left
after 39 iterations, and the radius `r = 616957217/671088640` written to `LJ_capradius`
satisfies `0 < r < sig` and `|force(r) - 100| < 1e-6`. -/
theorem calc_lj_cap_entry_scenario_B (g : Globals ℚ) (i j : Nat) (cut off c0 : ℚ) :
    ∃ st1 : CapPass ℚ,
      calc_lj_cap_entry 39 g 100 i j ⟨fun _ _ => ⟨1, 1, cut, off, c0⟩, 0, some 0, 0, []⟩ =
        some st1 ∧
      st1.cnt = 39 ∧
      (st1.table i j).LJ_capradius = 616957217 / 671088640 ∧
      0 < (st1.table i j).LJ_capradius ∧ (st1.table i j).LJ_capradius < 1 ∧
      |lj_force 1 1 (st1.table i j).LJ_capradius - 100| < 1 / 1000000 := by
  obtain ⟨st1, he⟩ := calc_lj_cap_entry_of_radius 39 g 100 i j
    ⟨fun _ _ => ⟨1, 1, cut, off, c0⟩, 0, some 0, 0, []⟩ (616957217 / 671088640)
    (cap_radius_of_scenario_B cut off c0)
  obtain ⟨_, _, h3, h4⟩ := calc_lj_cap_entry_locals_of_search 39 g 100 i j _ st1 _
    (by norm_num) cap_search_loop_scenario_B_run he
  refine ⟨st1, he, h3, h4, ?_, ?_, ?_⟩
  · rw [h4]; norm_num
  · rw [h4]; norm_num
  · rw [h4]
    norm_num [lj_force, SQR, abs_lt]

/-! ## Theorems: the force law of the source and the Lennard-Jones force -/

/-- The force law of `lj.h` is the Lennard-Jones force times `sig^2`. -/
theorem lj_force_eq_sq_mul_lennard_jones {K : Type} [LinearOrderedField K]
    (sig eps r : K) :
    lj_force sig eps r = sig ^ 2 * lennard_jones_force sig eps r := by
  by_cases hr : r = 0
  · simp [lj_force, lennard_jones_force, SQR, hr]
  · simp only [lj_force, lennard_jones_force, SQR]
    field_simp
    ring

/-- C19 (the code at the failing input): `sig = 2`, `eps = 1`, cutoff 5, no offset, no
capping, and a pair at distance 2 along the first axis.  The normal branch is taken and
the force added to `p1` has `fac * dist = 48`, whereas the Lennard-Jones force at `r = 2`
is 12: the factor `frac2 = (sig/r)^2` of the source stands where `1/r^2` is needed, and
the force computed is `sig^2 = 4` times the Lennard-Jones force. -/
theorem add_lj_pair_force_not_lennard_jones :
    (add_lj_pair_force (⟨0, 1 / 100, 1, false, false⟩ : Globals ℚ)
        ⟨⟨1⟩, fun _ => 0⟩ ⟨⟨2⟩, fun _ => 0⟩ ⟨1, 2, 5, 0, 0⟩
        (fun k => if k = 0 then 2 else 0) 2).p1.f 0 = 0 + 24 * 2 ∧
    uncapped_fac (⟨1, 2, 5, 0, 0⟩ : IA_parameters ℚ) 2 * 2 = 48 ∧
    lennard_jones_force (2 : ℚ) 1 2 = 12 ∧
    uncapped_fac (⟨1, 2, 5, 0, 0⟩ : IA_parameters ℚ) 2 * 2 ≠ lennard_jones_force (2 : ℚ) 1 2 ∧
    uncapped_fac (⟨1, 2, 5, 0, 0⟩ : IA_parameters ℚ) 2 * 2 =
      2 ^ 2 * lennard_jones_force (2 : ℚ) 1 2 := by
  have h1 : uncapped_fac (⟨1, 2, 5, 0, 0⟩ : IA_parameters ℚ) 2 = 24 := by
    norm_num [uncapped_fac, SQR]
  have h2 : lennard_jones_force (2 : ℚ) 1 2 = 12 := by
    norm_num [lennard_jones_force]
  refine ⟨?_, ?_, h2, ?_, ?_⟩
  · rw [(pair_force_normal_branch _ _ _ _ _ _ (by norm_num) (by norm_num) 0).1, h1]
    norm_num
  · rw [h1]; norm_num
  · rw [h1, h2]; norm_num
  · rw [h1, h2]; norm_num

/-! ## Theorems: convergence of the search -/

end LJ

namespace CudaCommon

open cudaError_t

/-! ## Auxiliary facts: the device particle buffer -/

/-- C16: the guarded device check.  `_cuda_safe_mem(err, file, line)` returns if and only if
`err` is `cudaSuccess` and the residual error polled with `cudaGetLastError` is
`cudaSuccess` as well, and then it prints nothing; in every other case it ends the process
with `exit(EXIT_FAILURE)`; and it prints one of the two "tried to allocate zero memory"
lines exactly when the error that caused the failure (`err`, or else the residual error)
is `cudaErrorInvalidValue`. -/
theorem cuda_safe_mem_returns_iff (st : CudaState) (err : cudaError_t) (file : String)
    (line : Nat) :
    ((∃ st1, (_cuda_safe_mem st err file line).outcome = Outcome.returns st1) ↔
      (err = cudaSuccess ∧ st.last_error = cudaSuccess)) ∧
    ((∃ st1, (_cuda_safe_mem st err file line).outcome = Outcome.exit_failure st1) ↔
      ¬ (err = cudaSuccess ∧ st.last_error = cudaSuccess)) ∧
    ((err = cudaSuccess ∧ st.last_error = cudaSuccess) →
      (_cuda_safe_mem st err file line).out = []) ∧
    ((CudaMsg.zero_memory_at file line ∈ (_cuda_safe_mem st err file line).out ∨
        CudaMsg.zero_memory_before file line ∈ (_cuda_safe_mem st err file line).out) ↔
      (err = cudaErrorInvalidValue ∨
        (err = cudaSuccess ∧ st.last_error = cudaErrorInvalidValue))) := by
  cases err with
  | cudaSuccess =>
    by_cases h1 : st.last_error = cudaSuccess
    · simp [_cuda_safe_mem, cudaGetLastError, h1]
    · by_cases h2 : st.last_error = cudaErrorInvalidValue
      · simp [_cuda_safe_mem, cudaGetLastError, h2]
      · simp [_cuda_safe_mem, cudaGetLastError, h1, h2]
  | cudaErrorInvalidValue => simp [_cuda_safe_mem]
  | other code => simp [_cuda_safe_mem]

/-- C20 (the code at the failing input): `err = cudaSuccess` with the residual error
`cudaErrorInvalidValue` recorded by the runtime.  The process is ended, and the lines
printed name the file and the line, but the line `"CUDA error: %s"` is printed with
`cudaGetErrorString(err)`, the string of `cudaSuccess`, and no line carries the string of
the residual error that caused the failure. -/
theorem cuda_safe_mem_residual_error_string :
    (_cuda_safe_mem ⟨cudaSuccess, cudaErrorInvalidValue⟩ cudaSuccess "cuda_common.cu" 42).outcome =
      Outcome.exit_failure ⟨cudaErrorInvalidValue, cudaSuccess⟩ ∧
    (_cuda_safe_mem ⟨cudaSuccess, cudaErrorInvalidValue⟩ cudaSuccess "cuda_common.cu" 42).out =
      [CudaMsg.found_during "cuda_common.cu" 42, CudaMsg.cuda_error cudaSuccess,
        CudaMsg.zero_memory_before "cuda_common.cu" 42] ∧
    CudaMsg.cuda_error cudaErrorInvalidValue ∉
      (_cuda_safe_mem ⟨cudaSuccess, cudaErrorInvalidValue⟩ cudaSuccess "cuda_common.cu" 42).out ∧
    (_cuda_safe_mem ⟨cudaSuccess, cudaSuccess⟩ cudaErrorInvalidValue "cuda_common.cu" 42).out =
      [CudaMsg.memory_error "cuda_common.cu" 42, CudaMsg.cuda_error cudaErrorInvalidValue,
        CudaMsg.zero_memory_at "cuda_common.cu" 42] := by
  refine ⟨?_, ?_, ?_, ?_⟩ <;> decide

end CudaCommon
